import Mathlib

/-!
Verification of the webhook ingestion and rule-execution pipeline of the
AmoLP repository (src/server/services/webhookService.ts,
src/server/services/performanceOptimizer.ts, the RedisCache layer and the
Bull queue configuration).

The TypeScript code is shallowly embedded: dynamically typed payload
scalars become the inductive `JVal` (JavaScript primitive values with
their truthiness and string coercion); the Redis keyspace becomes a
function from raw keys to an optional absolute expiry time; the
side-effecting rule loop becomes a state-passing fold that also emits a
trace of effects (log-visible decisions, sync attempts, dedup marks,
counter increments).  Fallible collaborator calls (the AmoCRM fetch, the
per-rule `incrementRuleExecution`, the per-action sync adapters) are
modelled by explicit `Except` values and failure oracles, matching the
placement of every `try`/`catch` in the source.

Conventions: `JVal.undefined` models JavaScript `undefined` (an absent key or
a short-circuited optional chain), `JVal.null` models `null`.  Numeric
scalars are modelled by `Int` (the payload ids and timestamps in play are
integral); loose equality between a number and a string is modelled by
comparison with the canonical decimal rendering.
-/

/-- JavaScript primitive values as they occur in the webhook payloads and
rule records (objects and arrays are modelled structurally by the records
below, not by `JVal`). -/
inductive JVal where
  | undefined
  | null
  | str (s : String)
  | num (n : Int)
  | bool (b : Bool)
deriving DecidableEq

/-- JavaScript truthiness of a primitive value. -/
def jsTruthy : JVal → Bool
  | .undefined => false
  | .null => false
  | .str s => s ≠ ""
  | .num n => n ≠ 0
  | .bool b => b

/-- JavaScript `String(x)` on a primitive value. -/
def jsToString : JVal → String
  | .undefined => "undefined"
  | .null => "null"
  | .str s => s
  | .num n => toString n
  | .bool b => if b then "true" else "false"

/-- JavaScript `x || y` on primitive values (value-preserving, picks the
first truthy operand). -/
def jsOr (a b : JVal) : JVal :=
  if jsTruthy a then a else b

/-- JavaScript `==` converts boolean operands to numbers first. -/
def jsBoolToNum : JVal → JVal
  | .bool b => .num (if b then 1 else 0)
  | v => v

/-- Loose equality on boolean-free primitive values: `null == undefined`,
same-type comparison, and number-vs-string comparison through the
canonical decimal rendering of the number. -/
def jsLooseEqCore : JVal → JVal → Bool
  | .undefined, .undefined => true
  | .undefined, .null => true
  | .null, .undefined => true
  | .null, .null => true
  | .str a, .str b => a = b
  | .num a, .num b => a = b
  | .str s, .num n => s = toString n
  | .num n, .str s => toString n = s
  | _, _ => false

/-- JavaScript loose equality `==` on primitive values. -/
def jsLooseEq (a b : JVal) : Bool :=
  jsLooseEqCore (jsBoolToNum a) (jsBoolToNum b)

/-- Character-list containment: does some suffix of `hay` start with
`needle`? -/
def charsContain (hay needle : List Char) : Bool :=
  match hay with
  | [] => needle.isEmpty
  | _ :: rest => needle.isPrefixOf hay || charsContain rest needle

/-- Substring test: does `hay` contain `needle`? (JavaScript
`String.prototype.includes`). -/
def strContains (hay needle : String) : Bool :=
  charsContain hay.toList needle.toList

/-- JavaScript `x?.includes(y)` where `x` is a primitive value: optional
chaining yields `undefined` (falsy) on `null`/`undefined`; a string does
the substring test with `y` coerced to a string; a number or boolean has
no `includes` method, so the call raises a `TypeError`, modelled as
`Except.error`. -/
def jsOptIncludes (receiver arg : JVal) : Except Unit Bool :=
  match receiver with
  | .undefined => .ok false
  | .null => .ok false
  | .str s => .ok (strContains s (jsToString arg))
  | .num _ => .error ()
  | .bool _ => .error ()

/-! ## Data model of rules, conditions, actions and event contexts
(from `shared/schema` usage inside `webhookService.ts`). -/

/-- One entry of a rule's `conditions.rules` list: `{type, field?, value}`. -/
structure Condition where
  ctype : JVal
  field : JVal
  value : JVal
deriving DecidableEq

/-- A rule's `conditions` object: `{operator?, rules?}`.  `rules = none`
models a missing or `null` `rules` key; note that an empty JavaScript
array is truthy, so `some []` is NOT the same as `none`. -/
structure Conditions where
  operator : JVal
  rules : Option (List Condition)
deriving DecidableEq

/-- One entry of a rule's `actions.list`: only the keys the relevance
filter and the dispatch switch read are modelled (`type`,
`fieldMappings`); the target pipeline/stage ids are copied verbatim into
the opaque sync payload and play no role in control flow. -/
structure SyncAction where
  atype : JVal
  fieldMappings : Option (List (String × String))
deriving DecidableEq

/-- A rule's `actions` object: `{list?}`. -/
structure Actions where
  list : Option (List SyncAction)
deriving DecidableEq

/-- A sync rule row as read by the webhook pipeline (`rule.name` is used
only inside log messages and is omitted). -/
structure SyncRule where
  id : Nat
  webhookSource : String
  isActive : Bool
  conditions : Option Conditions
  actions : Option Actions
deriving DecidableEq

/-- One AmoCRM `custom_fields_values` entry; `values` holds each entry's
`.value` (an absent `values` array is `none`, an entry without `.value`
is `JVal.undefined`). -/
structure AmoCustomField where
  field_id : JVal
  values : Option (List JVal)
deriving DecidableEq

/-- One LPTracker `custom` entry: `{id, value}`. -/
structure LpCustomField where
  id : JVal
  value : JVal
deriving DecidableEq

/-- The enriched AmoCRM lead detail, restricted to the keys the condition
evaluator reads. -/
structure LeadDetails where
  pipeline_id : JVal
  status_id : JVal
  custom_fields_values : Option (List AmoCustomField)
deriving DecidableEq

/-- The flat AmoCRM webhook payload, restricted to the keys the pipeline
reads (`account[subdomain]`, the four possible lead-id keys, and the two
`leads[add][0][...]` keys the evaluator falls back to). -/
structure AmoPayload where
  subdomain : JVal
  leadsAddId : JVal
  leadsStatusId : JVal
  leadsUpdateId : JVal
  leadsDeleteId : JVal
  addPipelineId : JVal
  addStatusId : JVal
deriving DecidableEq

/-- LPTracker `stage` sub-object. -/
structure LpStage where
  id : JVal
deriving DecidableEq

/-- The parsed LPTracker webhook body, restricted to the keys the
pipeline reads.  `action_update_fields = none` models a missing or
non-array value (the source checks `Array.isArray`). -/
structure LpWebhookData where
  id : JVal
  jtype : JVal
  action_timestamp : JVal
  action_update_fields : Option (List String)
  stage_id : JVal
  stage : Option LpStage
  custom : Option (List LpCustomField)
deriving DecidableEq

/-- The event context handed to `checkConditions`: the union of the keys
the evaluator probes on either source's context object. -/
structure EventCtx where
  etype : JVal
  leadDetails : Option LeadDetails
  webhookPayload : Option AmoPayload
  stage_id : JVal
  stage : Option LpStage
  custom : Option (List LpCustomField)
deriving DecidableEq

/-- Context for the LPTracker flow: `checkConditions(rule.conditions,
webhookData)` — the AmoCRM-only keys are absent. -/
def lpEventCtx (w : LpWebhookData) : EventCtx :=
  { etype := w.jtype
    leadDetails := none
    webhookPayload := none
    stage_id := w.stage_id
    stage := w.stage
    custom := w.custom }

/-- Context for the AmoCRM flow: the `eventData` object built in
`processLeadRules` (`{leadId, leadDetails, contactsDetails,
webhookPayload, userId}`) — the LPTracker-only keys are absent. -/
def amoEventCtx (ld : LeadDetails) (payload : AmoPayload) : EventCtx :=
  { etype := .undefined
    leadDetails := some ld
    webhookPayload := some payload
    stage_id := .undefined
    stage := none
    custom := none }

/-- AmoCRM custom-field lookup:
`eventData.leadDetails?.custom_fields_values?.find(f => f.field_id ==
condition.field)?.values?.[0]?.value`, `undefined` when any link is absent. -/
def amoCustomFieldValue (ctx : EventCtx) (condField : JVal) : JVal :=
  match ctx.leadDetails with
  | none => .undefined
  | some ld =>
    match ld.custom_fields_values with
    | none => .undefined
    | some cfs =>
      match cfs.find? (fun f => jsLooseEq f.field_id condField) with
      | none => .undefined
      | some f =>
        match f.values with
        | none => .undefined
        | some vs => vs.headD .undefined

/-- LPTracker custom-field lookup:
`eventData.custom?.find(f => f.id == condition.field)?.value`. -/
def lpCustomFieldValue (ctx : EventCtx) (condField : JVal) : JVal :=
  match ctx.custom with
  | none => .undefined
  | some cs =>
    match cs.find? (fun f => jsLooseEq f.id condField) with
    | none => .undefined
    | some f => f.value

/-- The value `eventData.webhookPayload?.[k]` for the two payload keys the
evaluator reads. -/
def payloadAddPipelineId (ctx : EventCtx) : JVal :=
  match ctx.webhookPayload with
  | none => .undefined
  | some p => p.addPipelineId

def payloadAddStatusId (ctx : EventCtx) : JVal :=
  match ctx.webhookPayload with
  | none => .undefined
  | some p => p.addStatusId

/-- The value `eventData.leadDetails?.k`. -/
def leadPipelineId (ctx : EventCtx) : JVal :=
  match ctx.leadDetails with
  | none => .undefined
  | some ld => ld.pipeline_id

def leadStatusId (ctx : EventCtx) : JVal :=
  match ctx.leadDetails with
  | none => .undefined
  | some ld => ld.status_id

/-- The value `eventData.stage?.id`. -/
def stageObjId (ctx : EventCtx) : JVal :=
  match ctx.stage with
  | none => .undefined
  | some st => st.id

/-- Evaluation of one condition of the `switch (condition.type)` inside
`checkConditions`.  `Except.error` marks the one place the body can raise
(`.includes` called on a non-string custom-field value); the enclosing
`try`/`catch` of `checkConditions` turns that into `false` for the whole
tree. -/
def evalCondition (ctx : EventCtx) (c : Condition) : Except Unit Bool :=
  if c.ctype = .str "event_type" then
    .ok (ctx.etype = c.value)
  else if c.ctype = .str "pipeline" then
    let pipelineId := jsOr (leadPipelineId ctx) (payloadAddPipelineId ctx)
    .ok (jsToString pipelineId = jsToString c.value)
  else if c.ctype = .str "status" then
    let statusId :=
      jsOr (jsOr (jsOr (leadStatusId ctx) (payloadAddStatusId ctx)) ctx.stage_id)
        (stageObjId ctx)
    .ok (jsToString statusId = jsToString c.value)
  else if c.ctype = .str "field_equals" then
    let fieldValue := amoCustomFieldValue ctx c.field
    if fieldValue ≠ .undefined then
      .ok (jsToString fieldValue = jsToString c.value)
    else
      let lpValue := lpCustomFieldValue ctx c.field
      if lpValue ≠ .undefined then
        .ok (jsToString lpValue = jsToString c.value)
      else
        .ok false
  else if c.ctype = .str "field_contains" then
    let fieldValue := amoCustomFieldValue ctx c.field
    if fieldValue ≠ .undefined then
      jsOptIncludes fieldValue c.value
    else
      let lpValue := lpCustomFieldValue ctx c.field
      if lpValue ≠ .undefined then
        jsOptIncludes lpValue c.value
      else
        .ok false
  else if c.ctype = .str "field_not_empty" then
    let fieldValue := amoCustomFieldValue ctx c.field
    if fieldValue ≠ .undefined then
      .ok (fieldValue ≠ .null ∧ fieldValue ≠ .str "")
    else
      let lpValue := lpCustomFieldValue ctx c.field
      if lpValue ≠ .undefined then
        .ok (lpValue ≠ .null ∧ lpValue ≠ .str "")
      else
        .ok false
  else
    .ok false

/-- Evaluation of the whole `conditions.rules.map(...)`: the result list
of per-condition booleans, or the first raised error.  (The JavaScript
`map` evaluates every condition, but since the enclosing `catch` turns
any error into `false` for the whole tree, stopping at the first error is
observably identical.) -/
def evalConditions (ctx : EventCtx) : List Condition → Except Unit (List Bool)
  | [] => .ok []
  | c :: rest =>
    match evalCondition ctx c with
    | .error e => .error e
    | .ok b =>
      match evalConditions ctx rest with
      | .error e => .error e
      | .ok bs => .ok (b :: bs)

/-- The condition evaluator `checkConditions(conditions, eventData)`.
`none` for the first argument models a `null`/missing `conditions`
object; a missing `rules` key short-circuits to `false`; the operator is
`conditions.operator || 'AND'` and only the exact string `OR` selects
disjunction.  The source's `try`/`catch` maps any raised error to
`false`, so the embedding is a total `Bool`-valued function. -/
def checkConditions (conditions : Option Conditions) (ctx : EventCtx) : Bool :=
  match conditions with
  | none => false
  | some c =>
    match c.rules with
    | none => false
    | some rs =>
      let operator := if jsTruthy c.operator then c.operator else .str "AND"
      match evalConditions ctx rs with
      | .error _ => false
      | .ok results =>
        if operator = .str "OR" then results.any id else results.all id

/-! ## Relevance filter (`isWebhookRelevant`, LPTracker flow only) -/

/-- Scan of a rule's condition list for a field touched by the update:
for each condition with a truthy `field` whose `type` contains the
substring `field_`, test whether some updated field contains
`condition.field` as a substring or equals `custom.` followed by it.
`condition.type?.includes` can raise when `type` is a number or boolean,
which propagates out of `isWebhookRelevant` (there is no `try`/`catch`
inside it). -/
def condFieldHit (updatedFields : List String) : List Condition → Except Unit Bool
  | [] => .ok false
  | c :: rest =>
    if jsTruthy c.field then
      match jsOptIncludes c.ctype (.str "field_") with
      | .error e => .error e
      | .ok isFieldType =>
        if isFieldType then
          let fieldPattern := "custom." ++ jsToString c.field
          if updatedFields.any
              (fun f => strContains f (jsToString c.field) || f = fieldPattern) then
            .ok true
          else
            condFieldHit updatedFields rest
        else
          condFieldHit updatedFields rest
    else
      condFieldHit updatedFields rest

/-- Scan of a rule's action list for a field-mapping source field touched
by the update. -/
def mappingFieldHit (updatedFields : List String) : List SyncAction → Bool
  | [] => false
  | a :: rest =>
    match a.fieldMappings with
    | none => mappingFieldHit updatedFields rest
    | some fms =>
      if fms.any (fun sf =>
          updatedFields.any
            (fun f => strContains f sf.1 || f = "custom." ++ sf.1)) then
        true
      else
        mappingFieldHit updatedFields rest

/-- The condition-list scan applied through `rule.conditions?.rules`
(absent object or absent list scans nothing). -/
def ruleCondHit (updatedFields : List String) (rule : SyncRule) : Except Unit Bool :=
  match rule.conditions with
  | none => .ok false
  | some c =>
    match c.rules with
    | none => .ok false
    | some rs => condFieldHit updatedFields rs

/-- The action-list scan applied through `rule.actions?.list`. -/
def ruleMappingHit (updatedFields : List String) (rule : SyncRule) : Bool :=
  match rule.actions with
  | none => false
  | some al =>
    match al.list with
    | none => false
    | some acts => mappingFieldHit updatedFields acts

/-- The smart relevance filter `isWebhookRelevant(webhookData, rule)`:
assume relevant without an updated-field list; always relevant on
`stage`/`stage_id` or `payments` updates; otherwise relevant only when a
condition field or an action mapping field was touched. -/
def isWebhookRelevant (w : LpWebhookData) (rule : SyncRule) : Except Unit Bool :=
  match w.action_update_fields with
  | none => .ok true
  | some updatedFields =>
    if updatedFields.contains "stage" || updatedFields.contains "stage_id" then
      .ok true
    else if updatedFields.contains "payments" then
      .ok true
    else
      match ruleCondHit updatedFields rule with
      | .error e => .error e
      | .ok true => .ok true
      | .ok false =>
        if ruleMappingHit updatedFields rule then .ok true else .ok false

/-! ## Redis keyspace, dedup keys and the cache layer
(`RedisCache` in `server/config/redis.ts`, the dedup helpers in
`webhookService.ts`, the flush helpers in `performanceOptimizer.ts`).

The keyspace maps each raw Redis key to the absolute expiry instant of
its value (`none` = absent).  `RedisCache` prepends `crm:` to every key
it touches; `SETEX key ttl v` stores an expiry of `now + ttl`, and
`EXISTS` sees the key exactly while `now < expiry`. -/

def RedisState := String → Option Nat

/-- The empty keyspace. -/
def emptyRedis : RedisState := fun _ => none

/-- Model of `cache.setWithTTL(key, value, ttl)` at instant `now` (the
stored JSON value itself is irrelevant to the pipeline, which only ever
tests existence). -/
def cacheSetWithTTL (st : RedisState) (key : String) (now ttl : Nat) : RedisState :=
  fun k => if k = "crm:" ++ key then some (now + ttl) else st k

/-- Model of `cache.exists(key)` at instant `now`. -/
def cacheExists (st : RedisState) (key : String) (now : Nat) : Bool :=
  match st ("crm:" ++ key) with
  | some expiry => now < expiry
  | none => false

/-- The dedup TTL: `WEBHOOK_DEDUP_TTL = 10 * 60` seconds. -/
def WEBHOOK_DEDUP_TTL : Nat := 10 * 60

/-- Model of `generateWebhookKey(userId, leadId, ruleId, timestamp?)`.
The template-literal component `timestamp || 'default'` falls back to the
literal token for every falsy timestamp (absent, `null`, `0`, ...). -/
def generateWebhookKey (userId leadId : String) (ruleId : Nat) (timestamp : JVal) : String :=
  "webhook:" ++ userId ++ ":" ++ leadId ++ ":" ++ toString ruleId ++ ":" ++
    (if jsTruthy timestamp then jsToString timestamp else "default")

/-- Model of `isWebhookAlreadyProcessed`. -/
def isWebhookAlreadyProcessed (st : RedisState) (userId leadId : String)
    (ruleId : Nat) (timestamp : JVal) (now : Nat) : Bool :=
  cacheExists st (generateWebhookKey userId leadId ruleId timestamp) now

/-- Model of `markWebhookProcessedInRedis`. -/
def markWebhookProcessedInRedis (st : RedisState) (userId leadId : String)
    (ruleId : Nat) (timestamp : JVal) (now : Nat) : RedisState :=
  cacheSetWithTTL st (generateWebhookKey userId leadId ruleId timestamp) now
    WEBHOOK_DEDUP_TTL

/-- Redis KEYS-style glob matching over character lists; the patterns the
code uses contain only literal characters and `*` (match any sequence).
A `*` consumes an arbitrary prefix, i.e. the rest of the pattern must
match some suffix of the string; recursion is structural on the
pattern. -/
def globMatch : List Char → List Char → Bool
  | [], s => s.isEmpty
  | p :: ps, s =>
    if p = '*' then
      s.tails.any (fun t => globMatch ps t)
    else
      match s with
      | [] => false
      | c :: rest => p = c && globMatch ps rest

/-- Glob matching on strings. -/
def globMatchStr (pat s : String) : Bool :=
  globMatch pat.toList s.toList

/-- Model of `cache.flushPattern(pattern)`: delete every key matching the
`crm:`-prefixed pattern. -/
def flushPattern (st : RedisState) (pat : String) : RedisState :=
  fun k => if globMatchStr ("crm:" ++ pat) k then none else st k

/-- Model of `PerformanceOptimizer.invalidateUserCache(userId)`: the four
pattern flushes, in source order. -/
def invalidateUserCache (st : RedisState) (userId : String) : RedisState :=
  flushPattern
    (flushPattern
      (flushPattern
        (flushPattern st ("sync_rules:" ++ userId ++ "*"))
        ("metadata:*:" ++ userId ++ "*"))
      ("settings:*:" ++ userId ++ "*"))
    ("webhook:" ++ userId ++ "*")

/-- Model of `PerformanceOptimizer.clearAllCaches()`. -/
def clearAllCaches (st : RedisState) : RedisState :=
  flushPattern
    (flushPattern
      (flushPattern
        (flushPattern st "sync_rules:*")
        "metadata:*")
      "settings:*")
    "webhook:*"

/-! ## Effect traces and the rule-execution loops -/

/-- Observable effects of one processing run, in emission order.  Each
per-rule log decision, sync-adapter call, dedup mark and counter
increment becomes one trace entry; `ruleError` is the per-rule `catch`
logging a caught exception. -/
inductive Effect where
  | evaluated (ruleId : Nat) (matched : Bool)
  | skippedDedup (ruleId : Nat)
  | skippedIrrelevant (ruleId : Nat)
  | dispatched (ruleId : Nat)
  | syncAttempt (ruleId idx : Nat) (target : String) (ok : Bool)
  | unknownAction (ruleId idx : Nat)
  | marked (key : String)
  | incremented (ruleId : Nat)
  | ruleError (ruleId : Nat)
deriving DecidableEq

/-- Model of `executeActions(actions, eventData)` for the rule with id
`ruleId`.  The opaque normalized sync payload is omitted (its assembly is
a pure expression of optional chains and cannot raise).  `syncOk i`
states whether the adapter call of action `i` succeeds; a failing call is
caught and logged by the per-action `catch`; an unknown `action.type` is
logged as a warning and skipped.  The function is total: no error escapes
it. -/
def executeActions (ruleId : Nat) (actions : Option Actions) (syncOk : Nat → Bool) :
    List Effect :=
  match actions with
  | none => []
  | some al =>
    match al.list with
    | none => []
    | some acts =>
      acts.enum.map (fun ia =>
        if ia.2.atype = .str "sync_to_amocrm" then
          .syncAttempt ruleId ia.1 "amocrm" (syncOk ia.1)
        else if ia.2.atype = .str "sync_to_lptracker" then
          .syncAttempt ruleId ia.1 "lptracker" (syncOk ia.1)
        else
          .unknownAction ruleId ia.1)

/-- One iteration of the LPTracker rule loop (the per-rule `try` body of
`processLpTrackerWebhookDirect`): evaluate conditions; on a match, check
dedup, then relevance, then run the actions, mark the dedup key with the
600 s TTL, and increment the rule's execution counter.  `incOk r` states
whether `storage.incrementRuleExecution(r)` succeeds; a raised error
(from it, or from a relevance-filter `TypeError`) is caught by the
per-rule `catch` and logged as `ruleError`. -/
def processLpRule (userId : String) (w : LpWebhookData) (now : Nat)
    (incOk : Nat → Bool) (syncOk : Nat → Nat → Bool)
    (st : RedisState) (rule : SyncRule) : RedisState × List Effect :=
  let matched := checkConditions rule.conditions (lpEventCtx w)
  let e0 : List Effect := [.evaluated rule.id matched]
  if matched then
    let leadId := jsToString w.id
    let key := generateWebhookKey userId leadId rule.id w.action_timestamp
    if cacheExists st key now then
      (st, e0 ++ [.skippedDedup rule.id])
    else
      match isWebhookRelevant w rule with
      | .error _ => (st, e0 ++ [.ruleError rule.id])
      | .ok false => (st, e0 ++ [.skippedIrrelevant rule.id])
      | .ok true =>
        let actionEffects := executeActions rule.id rule.actions (syncOk rule.id)
        let st' := cacheSetWithTTL st key now WEBHOOK_DEDUP_TTL
        (st', e0 ++ [.dispatched rule.id] ++ actionEffects ++ [.marked key] ++
          (if incOk rule.id then [.incremented rule.id] else [.ruleError rule.id]))
  else
    (st, e0)

/-- Sequential processing of a rule list, threading the Redis state and
concatenating the effect traces (the shape of both rule loops). -/
def runRules (step : RedisState → SyncRule → RedisState × List Effect) :
    RedisState → List SyncRule → RedisState × List Effect
  | st, [] => (st, [])
  | st, r :: rest =>
    let p := step st r
    let q := runRules step p.1 rest
    (q.1, p.2 ++ q.2)

/-- The rule loop of `processLpTrackerWebhookDirect`, applied to the rule
list returned by `performanceOptimizer.getCachedSyncRules(userId)`.  Note
that this flow applies NO source or `isActive` filter to the list. -/
def processLpTrackerRules (userId : String) (w : LpWebhookData) (now : Nat)
    (incOk : Nat → Bool) (syncOk : Nat → Nat → Bool)
    (st : RedisState) (rules : List SyncRule) : RedisState × List Effect :=
  runRules (processLpRule userId w now incOk syncOk) st rules

/-- One iteration of the AmoCRM rule loop (the per-rule `try` body of
`processLeadRules`): evaluate conditions; on a match, check dedup (with
NO timestamp argument, hence the `default` key component), run the
actions, mark, increment.  There is no relevance filter on this path. -/
def processAmoRule (userId : String) (leadId : JVal) (ctx : EventCtx) (now : Nat)
    (incOk : Nat → Bool) (syncOk : Nat → Nat → Bool)
    (st : RedisState) (rule : SyncRule) : RedisState × List Effect :=
  let matched := checkConditions rule.conditions ctx
  let e0 : List Effect := [.evaluated rule.id matched]
  if matched then
    let leadIdStr := jsToString leadId
    let key := generateWebhookKey userId leadIdStr rule.id .undefined
    if cacheExists st key now then
      (st, e0 ++ [.skippedDedup rule.id])
    else
      let actionEffects := executeActions rule.id rule.actions (syncOk rule.id)
      let st' := cacheSetWithTTL st key now WEBHOOK_DEDUP_TTL
      (st', e0 ++ [.dispatched rule.id] ++ actionEffects ++ [.marked key] ++
        (if incOk rule.id then [.incremented rule.id] else [.ruleError rule.id]))
  else
    (st, e0)

/-- Model of `processLeadRules(userId, leadId, leadDetails, ...,
originalPayload)`: the rules come straight from
`storage.getSyncRules(userId)` and are filtered to
`webhookSource === 'amocrm'` and then to `isActive` before the loop. -/
def processLeadRules (userId : String) (leadId : JVal) (ld : LeadDetails)
    (payload : AmoPayload) (storageRules : List SyncRule) (now : Nat)
    (incOk : Nat → Bool) (syncOk : Nat → Nat → Bool)
    (st : RedisState) : RedisState × List Effect :=
  let amoCrmRules := storageRules.filter (fun r => r.webhookSource = "amocrm")
  let activeRules := amoCrmRules.filter (fun r => r.isActive)
  runRules (processAmoRule userId leadId (amoEventCtx ld payload) now incOk syncOk)
    st activeRules

/-- The bare AmoCRM rule loop over an arbitrary (already filtered) rule
list: `processLeadRules` is this loop applied to the doubly filtered
list. -/
def processAmoRules (userId : String) (leadId : JVal) (ctx : EventCtx)
    (now : Nat) (incOk : Nat → Bool) (syncOk : Nat → Nat → Bool)
    (st : RedisState) (rules : List SyncRule) : RedisState × List Effect :=
  runRules (processAmoRule userId leadId ctx now incOk syncOk) st rules

/-! ## The AmoCRM top-level processing call -/

/-- Terminal outcome of one `processAmoCrmWebhookDirect` invocation. -/
inductive AmoOutcome where
  | noSubdomain
  | userNotFound
  | noLeadId
  | enrichFailed
  | processed
deriving DecidableEq

/-- The lead-id extraction if-chain over the four possible payload keys,
first truthy value wins (`null` when none is populated, matching the
source's initialisation). -/
def extractLeadId (p : AmoPayload) : JVal :=
  if jsTruthy p.leadsAddId then p.leadsAddId
  else if jsTruthy p.leadsStatusId then p.leadsStatusId
  else if jsTruthy p.leadsUpdateId then p.leadsUpdateId
  else if jsTruthy p.leadsDeleteId then p.leadsDeleteId
  else .null

/-- Model of `processAmoCrmWebhookDirect(payload)`.  Collaborators are
explicit: `findUser` models the `findUserBySubdomain` scan (which catches
its own errors and returns `null`), `fetchLead` the result of the
`getLeadDetails` HTTP call for this event.  The contact-detail loop is
omitted: each contact fetch failure is caught per contact with a warning
and its results only feed the opaque sync payload.  The codomain is
`Except Unit ...`: `Except.error` is an exception escaping to the Bull
queue worker (which would retry the job).  The enrichment `try`/`catch`
around `getLeadDetails`/`processLeadRules` logs the error and returns
normally, so a fetch failure produces `Except.ok` with outcome
`enrichFailed`. -/
def processAmoCrmWebhookDirect (payload : AmoPayload)
    (findUser : String → Option String) (fetchLead : Except Unit LeadDetails)
    (storageRules : List SyncRule) (now : Nat)
    (incOk : Nat → Bool) (syncOk : Nat → Nat → Bool)
    (st : RedisState) : Except Unit (RedisState × List Effect × AmoOutcome) :=
  if ¬ jsTruthy payload.subdomain then
    .ok (st, [], .noSubdomain)
  else
    match findUser (jsToString payload.subdomain) with
    | none => .ok (st, [], .userNotFound)
    | some userId =>
      let leadId := extractLeadId payload
      if ¬ jsTruthy leadId then
        .ok (st, [], .noLeadId)
      else
        match fetchLead with
        | .error _ => .ok (st, [], .enrichFailed)
        | .ok ld =>
          let p := processLeadRules userId leadId ld payload storageRules now
            incOk syncOk st
          .ok (p.1, p.2, .processed)

/-- The rule ids whose conditions were evaluated, in order. -/
def evaluatedIds (effects : List Effect) : List Nat :=
  effects.filterMap (fun e =>
    match e with
    | .evaluated i _ => some i
    | _ => none)

/-- The rule ids whose actions were dispatched, in order. -/
def dispatchedIds (effects : List Effect) : List Nat :=
  effects.filterMap (fun e =>
    match e with
    | .dispatched i => some i
    | _ => none)

/-! ## Concrete fixtures used by counterexamples and witnesses -/

/-- An event context with every probed key absent. -/
def ctxEmpty : EventCtx :=
  { etype := .undefined, leadDetails := none, webhookPayload := none,
    stage_id := .undefined, stage := none, custom := none }

/-- An event context whose only populated key is `stage_id = 7`. -/
def ctxStage7 : EventCtx :=
  { etype := .undefined, leadDetails := none, webhookPayload := none,
    stage_id := .num 7, stage := none, custom := none }

/-- A `status` condition against the literal stage id `v`. -/
def condStatusIs (v : Int) : Condition :=
  { ctype := JVal.str "status", field := JVal.undefined, value := JVal.num v }

/-- A concrete parsed LPTracker webhook: lead 42 in stage 5, with an
action timestamp and no updated-field list. -/
def lpDataC : LpWebhookData :=
  { id := .num 42, jtype := .undefined, action_timestamp := .num 1111,
    action_update_fields := none, stage_id := .num 5, stage := none,
    custom := none }

/-- A sync-to-AmoCRM action with no field mappings. -/
def actionSyncAmo : SyncAction :=
  { atype := JVal.str "sync_to_amocrm"
    fieldMappings := none }

/-- An ACTIVE LPTracker-source rule matching stage 5. -/
def ruleActiveLp : SyncRule :=
  { id := 3
    webhookSource := "lptracker"
    isActive := true
    conditions := some { operator := JVal.str "AND"
                         rules := some [condStatusIs 5] }
    actions := some { list := some [actionSyncAmo] } }

/-- An INACTIVE rule tagged with the OTHER source (`amocrm`) whose
condition nevertheless matches the LPTracker event above. -/
def ruleInactiveAmo : SyncRule :=
  { id := 2
    webhookSource := "amocrm"
    isActive := false
    conditions := some { operator := JVal.str "AND"
                         rules := some [condStatusIs 5] }
    actions := some { list := some [actionSyncAmo] } }

/-- A concrete AmoCRM payload: subdomain `acme`, new lead 7. -/
def amoPayloadC : AmoPayload :=
  { subdomain := .str "acme", leadsAddId := .num 7, leadsStatusId := .undefined,
    leadsUpdateId := .undefined, leadsDeleteId := .undefined,
    addPipelineId := .undefined, addStatusId := .undefined }

/-- A user-resolution table knowing only the subdomain `acme`. -/
def findUserC : String → Option String :=
  fun s => if s = "acme" then some "u1" else none

/-- A concrete enriched AmoCRM lead: pipeline 10, status 142, no custom
fields. -/
def leadDetailsC : LeadDetails :=
  { pipeline_id := .num 10
    status_id := .num 142
    custom_fields_values := none }

/-- An ACTIVE AmoCRM-source rule matching status 142. -/
def ruleActiveAmo : SyncRule :=
  { id := 4
    webhookSource := "amocrm"
    isActive := true
    conditions := some { operator := JVal.str "AND"
                         rules := some [condStatusIs 142] }
    actions := some { list := some [actionSyncAmo] } }

/-! ## Helper lemmas about the loops and effect traces -/

lemma runRules_cons (step : RedisState → SyncRule → RedisState × List Effect)
    (st : RedisState) (r : SyncRule) (rest : List SyncRule) :
    runRules step st (r :: rest) =
      ((runRules step (step st r).1 rest).1,
        (step st r).2 ++ (runRules step (step st r).1 rest).2) := rfl

/-- Every effect `executeActions` emits is a sync attempt or an
unknown-action warning for the given rule. -/
lemma executeActions_shape {rid : Nat} {acts : Option Actions}
    {so : Nat → Bool} {e : Effect} (h : e ∈ executeActions rid acts so) :
    (∃ i t b, e = .syncAttempt rid i t b) ∨ (∃ i, e = .unknownAction rid i) := by
  cases acts with
  | none => simp [executeActions] at h
  | some al =>
    cases hl : al.list with
    | none => simp [executeActions, hl] at h
    | some l =>
      simp only [executeActions, hl, List.mem_map] at h
      obtain ⟨ia, _, hia⟩ := h
      split at hia
      · exact Or.inl ⟨ia.1, "amocrm", _, hia.symm⟩
      · split at hia
        · exact Or.inl ⟨ia.1, "lptracker", _, hia.symm⟩
        · exact Or.inr ⟨ia.1, hia.symm⟩

lemma evaluated_notin_executeActions {rid i : Nat} {b : Bool}
    {acts : Option Actions} {so : Nat → Bool} :
    Effect.evaluated i b ∉ executeActions rid acts so := by
  intro h
  rcases executeActions_shape h with ⟨_, _, _, h⟩ | ⟨_, h⟩ <;> simp at h

lemma dispatched_notin_executeActions {rid i : Nat}
    {acts : Option Actions} {so : Nat → Bool} :
    Effect.dispatched i ∉ executeActions rid acts so := by
  intro h
  rcases executeActions_shape h with ⟨_, _, _, h⟩ | ⟨_, h⟩ <;> simp at h

lemma incremented_notin_executeActions {rid i : Nat}
    {acts : Option Actions} {so : Nat → Bool} :
    Effect.incremented i ∉ executeActions rid acts so := by
  intro h
  rcases executeActions_shape h with ⟨_, _, _, h⟩ | ⟨_, h⟩ <;> simp at h

lemma skippedDedup_notin_executeActions {rid i : Nat}
    {acts : Option Actions} {so : Nat → Bool} :
    Effect.skippedDedup i ∉ executeActions rid acts so := by
  intro h
  rcases executeActions_shape h with ⟨_, _, _, h⟩ | ⟨_, h⟩ <;> simp at h

lemma marked_in_executeActions {rid : Nat} {k : String}
    {acts : Option Actions} {so : Nat → Bool} :
    Effect.marked k ∉ executeActions rid acts so := by
  intro h
  rcases executeActions_shape h with ⟨_, _, _, h⟩ | ⟨_, h⟩ <;> simp at h

lemma evaluatedIds_executeActions {rid : Nat} {acts : Option Actions}
    {so : Nat → Bool} : evaluatedIds (executeActions rid acts so) = [] := by
  rw [evaluatedIds, List.filterMap_eq_nil_iff]
  intro e he
  rcases executeActions_shape he with ⟨_, _, _, h⟩ | ⟨_, h⟩ <;> subst h <;> rfl

lemma dispatchedIds_executeActions {rid : Nat} {acts : Option Actions}
    {so : Nat → Bool} : dispatchedIds (executeActions rid acts so) = [] := by
  rw [dispatchedIds, List.filterMap_eq_nil_iff]
  intro e he
  rcases executeActions_shape he with ⟨_, _, _, h⟩ | ⟨_, h⟩ <;> subst h <;> rfl

lemma evaluatedIds_append (a b : List Effect) :
    evaluatedIds (a ++ b) = evaluatedIds a ++ evaluatedIds b := by
  simp [evaluatedIds, List.filterMap_append]

lemma dispatchedIds_append (a b : List Effect) :
    dispatchedIds (a ++ b) = dispatchedIds a ++ dispatchedIds b := by
  simp [dispatchedIds, List.filterMap_append]

/-! ## Claim C2 — fail-closed evaluator -/

/-- Counterexample to claim C2: an empty `rules` LIST does not evaluate
to `false`.  An empty JavaScript array is truthy, so `!conditions.rules`
does not fire, and the default `AND` reduction `[].every(...)` is
vacuously `true`: `checkConditions({rules: []}, ctx)` returns `true`. -/
theorem c2_empty_rules_counterexample :
    checkConditions (some ⟨JVal.undefined, some []⟩) ctxEmpty = true := by
  decide

/-- Claim C2 (amended): `checkConditions` is total (never throws — any
internal error is caught and becomes `false`) and returns `false` for a
`null` conditions object, for a missing `rules` key, and for a tree whose
single condition has an unknown type; however an EMPTY `rules` list
evaluates to `false` only under the `OR` operator — under `AND` or an
omitted/falsy operator it is vacuously `true`. -/
theorem c2_fail_closed_amended :
    (∀ ctx : EventCtx, checkConditions none ctx = false) ∧
    (∀ (ctx : EventCtx) (op : JVal),
      checkConditions (some ⟨op, none⟩) ctx = false) ∧
    (∀ ctx : EventCtx,
      checkConditions (some ⟨JVal.str "OR", some []⟩) ctx = false) ∧
    (∀ (ctx : EventCtx) (op : JVal), op ≠ JVal.str "OR" →
      checkConditions (some ⟨op, some []⟩) ctx = true) ∧
    (∀ (ctx : EventCtx) (op : JVal) (c : Condition),
      c.ctype ∉ [JVal.str "event_type", JVal.str "pipeline", JVal.str "status",
        JVal.str "field_equals", JVal.str "field_contains",
        JVal.str "field_not_empty"] →
      checkConditions (some ⟨op, some [c]⟩) ctx = false) := by
  refine ⟨fun ctx => rfl, fun ctx op => rfl, fun ctx => rfl, ?_, ?_⟩
  · intro ctx op hop
    by_cases ht : jsTruthy op = true
    · simp [checkConditions, evalConditions, ht, hop]
    · simp [checkConditions, evalConditions, ht]
  · intro ctx op c hc
    simp only [List.mem_cons, List.not_mem_nil, or_false, not_or] at hc
    obtain ⟨h1, h2, h3, h4, h5, h6⟩ := hc
    have he : evalCondition ctx c = .ok false := by
      simp [evalCondition, h1, h2, h3, h4, h5, h6]
    simp [checkConditions, evalConditions, he]

/-- Witness for `c2_fail_closed_amended` at concrete inputs. -/
theorem c2_fail_closed_amended_witness :
    checkConditions (some ⟨JVal.num 1, some []⟩) ctxEmpty = true ∧
    checkConditions
      (some ⟨JVal.undefined, some [⟨JVal.str "bogus", JVal.undefined, JVal.num 1⟩]⟩)
      ctxEmpty = false :=
  ⟨c2_fail_closed_amended.2.2.2.1 ctxEmpty (JVal.num 1) (by decide),
   c2_fail_closed_amended.2.2.2.2 ctxEmpty JVal.undefined _ (by decide)⟩

/-! ## Claim C5 — operator semantics -/

/-- Claim C5: when every condition evaluates without raising, the `OR`
operator reduces the results by disjunction, the `AND` operator by
conjunction, and an omitted (undefined, hence falsy) operator defaults to
`AND`; concretely, over results `[false, true]` the `OR` tree is `true`
and the `AND`/omitted trees are `false`. -/
theorem c5_operator_semantics :
    (∀ (ctx : EventCtx) (rs : List Condition) (results : List Bool),
      evalConditions ctx rs = Except.ok results →
      checkConditions (some ⟨JVal.str "OR", some rs⟩) ctx = results.any id ∧
      checkConditions (some ⟨JVal.str "AND", some rs⟩) ctx = results.all id ∧
      checkConditions (some ⟨JVal.undefined, some rs⟩) ctx = results.all id) ∧
    checkConditions (some ⟨JVal.str "OR", some [condStatusIs 9, condStatusIs 5]⟩)
      (lpEventCtx lpDataC) = true ∧
    checkConditions (some ⟨JVal.str "AND", some [condStatusIs 9, condStatusIs 5]⟩)
      (lpEventCtx lpDataC) = false ∧
    checkConditions (some ⟨JVal.undefined, some [condStatusIs 9, condStatusIs 5]⟩)
      (lpEventCtx lpDataC) = false := by
  refine ⟨?_, by decide, by decide, by decide⟩
  intro ctx rs results h
  refine ⟨?_, ?_, ?_⟩ <;> simp [checkConditions, h, jsTruthy]

/-- Witness for `c5_operator_semantics` at a concrete condition list: the
two `status` conditions evaluate to `[false, true]` on the concrete
LPTracker event. -/
theorem c5_operator_semantics_witness :
    checkConditions (some ⟨JVal.str "OR", some [condStatusIs 9, condStatusIs 5]⟩)
      (lpEventCtx lpDataC) = [false, true].any id ∧
    checkConditions (some ⟨JVal.str "AND", some [condStatusIs 9, condStatusIs 5]⟩)
      (lpEventCtx lpDataC) = [false, true].all id :=
  ⟨(c5_operator_semantics.1 (lpEventCtx lpDataC) [condStatusIs 9, condStatusIs 5]
      [false, true] (by rfl)).1,
   (c5_operator_semantics.1 (lpEventCtx lpDataC) [condStatusIs 9, condStatusIs 5]
      [false, true] (by rfl)).2.1⟩

/-! ## Claim C6 — relevance filter -/

/-- Claim C6: with no `action_update_fields` list every rule is relevant;
an update touching `stage`, `stage_id` or `payments` is relevant for
every rule regardless of its content; otherwise the rule is relevant only
when the updated fields hit a condition field or an action-mapping field
of that rule; and a rule skipped as irrelevant leaves the Redis state
untouched, so the remaining rules are processed exactly as if it were
processed alone. -/
theorem c6_relevance_filter :
    (∀ (w : LpWebhookData) (rule : SyncRule),
      w.action_update_fields = none → isWebhookRelevant w rule = .ok true) ∧
    (∀ (w : LpWebhookData) (rule : SyncRule) (fs : List String),
      w.action_update_fields = some fs →
      (fs.contains "stage" || fs.contains "stage_id" || fs.contains "payments")
        = true →
      isWebhookRelevant w rule = .ok true) ∧
    (∀ (w : LpWebhookData) (rule : SyncRule) (fs : List String),
      w.action_update_fields = some fs →
      (fs.contains "stage" || fs.contains "stage_id" || fs.contains "payments")
        = false →
      isWebhookRelevant w rule = .ok true →
      ruleCondHit fs rule = .ok true ∨ ruleMappingHit fs rule = true) ∧
    (∀ (userId : String) (w : LpWebhookData) (now : Nat) (incOk : Nat → Bool)
      (syncOk : Nat → Nat → Bool) (st : RedisState) (rule : SyncRule)
      (rest : List SyncRule),
      isWebhookRelevant w rule = .ok false →
      processLpTrackerRules userId w now incOk syncOk st (rule :: rest) =
        ((processLpTrackerRules userId w now incOk syncOk st rest).1,
          (processLpRule userId w now incOk syncOk st rule).2 ++
            (processLpTrackerRules userId w now incOk syncOk st rest).2)) := by
  refine ⟨?_, ?_, ?_, ?_⟩
  · intro w rule h
    simp [isWebhookRelevant, h]
  · intro w rule fs h hc
    simp only [isWebhookRelevant, h]
    by_cases h1 : (fs.contains "stage" || fs.contains "stage_id") = true
    · rw [if_pos h1]
    · rw [if_neg h1]
      rw [Bool.not_eq_true] at h1
      have h3 : fs.contains "payments" = true := by
        revert hc h1
        cases fs.contains "stage" <;> cases fs.contains "stage_id" <;>
          cases fs.contains "payments" <;> simp
      rw [if_pos h3]
  · intro w rule fs h hflags hrel
    have h1 : fs.contains "stage" = false := by
      revert hflags; cases fs.contains "stage" <;> simp
    have h2 : fs.contains "stage_id" = false := by
      revert hflags; cases fs.contains "stage_id" <;> simp
    have h3 : fs.contains "payments" = false := by
      revert hflags; cases fs.contains "payments" <;> simp
    simp only [isWebhookRelevant, h, h1, h2, h3, Bool.or_self, Bool.or_false,
      if_false, Bool.false_eq_true] at hrel
    cases hch : ruleCondHit fs rule with
    | error e => rw [hch] at hrel; simp at hrel
    | ok b =>
      rw [hch] at hrel
      cases b with
      | true => exact Or.inl rfl
      | false =>
        cases hmm : ruleMappingHit fs rule with
        | true => exact Or.inr rfl
        | false => rw [hmm] at hrel; simp at hrel
  · intro userId w now incOk syncOk st rule rest hrel
    have hst : (processLpRule userId w now incOk syncOk st rule).1 = st := by
      simp only [processLpRule]
      split
      · split
        · rfl
        · rw [hrel]
      · rfl
    simp only [processLpTrackerRules]
    rw [runRules_cons, hst]

/-- Witness for `c6_relevance_filter` at concrete inputs. -/
theorem c6_relevance_filter_witness :
    isWebhookRelevant lpDataC ruleActiveLp = .ok true ∧
    isWebhookRelevant
      { lpDataC with action_update_fields := some ["stage_id"] }
      ruleInactiveAmo = .ok true :=
  ⟨c6_relevance_filter.1 lpDataC ruleActiveLp rfl,
   c6_relevance_filter.2.1
     { lpDataC with action_update_fields := some ["stage_id"] }
     ruleInactiveAmo ["stage_id"] rfl (by decide)⟩

/-- Looking up a key right after setting it sees exactly the configured
expiry. -/
lemma cacheExists_setWithTTL_self (st : RedisState) (k : String)
    (now ttl n2 : Nat) :
    cacheExists (cacheSetWithTTL st k now ttl) k n2 = decide (n2 < now + ttl) := by
  simp [cacheExists, cacheSetWithTTL]

/-! ## Claim C8 — dedup key shape and TTL -/

/-- Counterexample to claim C8: the key's final component is the literal
`default` NOT exactly when no action timestamp is available — a present
but falsy timestamp (the number `0`) also selects the fallback, because
the source computes `timestamp || 'default'`. -/
theorem c8_default_token_counterexample :
    generateWebhookKey "u" "1" 7 (JVal.num 0) = "webhook:u:1:7:default" ∧
    JVal.num 0 ≠ JVal.undefined ∧ JVal.num 0 ≠ JVal.null := by
  refine ⟨by decide, by decide, by decide⟩

/-- Claim C8 (amended): the dedup key is
`webhook:` userId `:` externalId `:` ruleId `:` suffix, where the suffix
is the literal token `default` exactly when the action timestamp is FALSY
(absent, `null`, or the number `0`), and the timestamp's string rendering
otherwise; the marker is stored with `WEBHOOK_DEDUP_TTL = 600` seconds:
after marking at instant `now` the key is seen as processed strictly
before `now + 600` and no longer at or after `now + 600`. -/
theorem c8_dedup_key_and_ttl :
    WEBHOOK_DEDUP_TTL = 600 ∧
    (∀ (u l : String) (r : Nat) (t : JVal), jsTruthy t = false →
      generateWebhookKey u l r t =
        "webhook:" ++ u ++ ":" ++ l ++ ":" ++ toString r ++ ":" ++ "default") ∧
    (∀ (u l : String) (r : Nat) (t : JVal), jsTruthy t = true →
      generateWebhookKey u l r t =
        "webhook:" ++ u ++ ":" ++ l ++ ":" ++ toString r ++ ":" ++ jsToString t) ∧
    (∀ (st : RedisState) (u l : String) (r : Nat) (t : JVal) (now now2 : Nat),
      now2 < now + 600 →
      isWebhookAlreadyProcessed
        (markWebhookProcessedInRedis st u l r t now) u l r t now2 = true) ∧
    (∀ (st : RedisState) (u l : String) (r : Nat) (t : JVal) (now now2 : Nat),
      now + 600 ≤ now2 →
      isWebhookAlreadyProcessed
        (markWebhookProcessedInRedis st u l r t now) u l r t now2 = false) := by
  refine ⟨rfl, ?_, ?_, ?_, ?_⟩
  · intro u l r t h
    simp [generateWebhookKey, h]
  · intro u l r t h
    simp [generateWebhookKey, h]
  · intro st u l r t now now2 hlt
    rw [isWebhookAlreadyProcessed, markWebhookProcessedInRedis,
      cacheExists_setWithTTL_self]
    simp only [WEBHOOK_DEDUP_TTL, decide_eq_true_eq]
    omega
  · intro st u l r t now now2 hge
    rw [isWebhookAlreadyProcessed, markWebhookProcessedInRedis,
      cacheExists_setWithTTL_self]
    simp only [WEBHOOK_DEDUP_TTL, decide_eq_false_iff_not]
    omega

/-- Witness for `c8_dedup_key_and_ttl` at concrete inputs. -/
theorem c8_dedup_key_and_ttl_witness :
    generateWebhookKey "u1" "42" 3 JVal.undefined = "webhook:u1:42:3:default" ∧
    generateWebhookKey "u1" "42" 3 (JVal.num 1111) = "webhook:u1:42:3:1111" ∧
    isWebhookAlreadyProcessed
      (markWebhookProcessedInRedis emptyRedis "u1" "42" 3 (JVal.num 1111) 100)
      "u1" "42" 3 (JVal.num 1111) 699 = true ∧
    isWebhookAlreadyProcessed
      (markWebhookProcessedInRedis emptyRedis "u1" "42" 3 (JVal.num 1111) 100)
      "u1" "42" 3 (JVal.num 1111) 700 = false := by
  refine ⟨?_, ?_, ?_, ?_⟩
  · have h := c8_dedup_key_and_ttl.2.1 "u1" "42" 3 JVal.undefined (by decide)
    rw [h]; decide
  · have h := c8_dedup_key_and_ttl.2.2.1 "u1" "42" 3 (JVal.num 1111) (by decide)
    rw [h]; decide
  · exact c8_dedup_key_and_ttl.2.2.2.1 emptyRedis "u1" "42" 3 (JVal.num 1111)
      100 699 (by omega)
  · exact c8_dedup_key_and_ttl.2.2.2.2 emptyRedis "u1" "42" 3 (JVal.num 1111)
      100 700 (by omega)

/-! ## Claim C3 — enrichment failure handling -/

/-- Counterexample to claim C3: a failing AmoCRM lead-detail fetch does
NOT surface to the Job Queue as a retryable error — the inner
`try`/`catch` around the enrichment block logs the error and returns
normally, so the worker sees an ordinary completion (`Except.ok`), not a
propagated exception. -/
theorem c3_enrich_failure_counterexample :
    processAmoCrmWebhookDirect amoPayloadC findUserC (Except.error ()) []
      0 (fun _ => true) (fun _ _ => true) emptyRedis
      = Except.ok (emptyRedis, [], AmoOutcome.enrichFailed) := rfl

/-- Claim C3 (amended): whenever the subdomain resolves to a user and a
lead id is present, a failing lead-detail fetch is caught inside
`processAmoCrmWebhookDirect`, logged, and the call returns success with
no rule processed and no effect emitted — the Job Queue does not retry
enrichment failures. -/
theorem c3_enrich_failure_swallowed :
    ∀ (payload : AmoPayload) (findUser : String → Option String)
      (rules : List SyncRule) (now : Nat) (incOk : Nat → Bool)
      (syncOk : Nat → Nat → Bool) (st : RedisState) (u : String),
      jsTruthy payload.subdomain = true →
      findUser (jsToString payload.subdomain) = some u →
      jsTruthy (extractLeadId payload) = true →
      processAmoCrmWebhookDirect payload findUser (Except.error ()) rules now
        incOk syncOk st = Except.ok (st, [], AmoOutcome.enrichFailed) := by
  intro payload findUser rules now incOk syncOk st u h1 h2 h3
  simp [processAmoCrmWebhookDirect, h1, h2, h3]

/-- Witness for `c3_enrich_failure_swallowed` at concrete inputs. -/
theorem c3_enrich_failure_swallowed_witness :
    processAmoCrmWebhookDirect amoPayloadC findUserC (Except.error ())
      [ruleInactiveAmo] 5 (fun _ => true) (fun _ _ => false) emptyRedis
      = Except.ok (emptyRedis, [], AmoOutcome.enrichFailed) :=
  c3_enrich_failure_swallowed amoPayloadC findUserC [ruleInactiveAmo] 5
    (fun _ => true) (fun _ _ => false) emptyRedis "u1" (by decide) (by decide)
    (by decide)

/-! ## Per-rule trace lemmas shared by C1, C4, C7 -/

/-- Each LPTracker rule iteration emits exactly one `evaluated` entry,
carrying its own rule id. -/
lemma evaluatedIds_processLpRule (u : String) (w : LpWebhookData) (now : Nat)
    (inc : Nat → Bool) (so : Nat → Nat → Bool) (st : RedisState) (r : SyncRule) :
    evaluatedIds (processLpRule u w now inc so st r).2 = [r.id] := by
  simp only [processLpRule]
  split
  · split
    · simp [evaluatedIds]
    · split
      · simp [evaluatedIds]
      · simp [evaluatedIds]
      · split <;>
          (simp [evaluatedIds_append, evaluatedIds];
           intro a ha;
           rcases executeActions_shape ha with ⟨_, _, _, hx⟩ | ⟨_, hx⟩ <;>
             subst hx <;> rfl)
  · simp [evaluatedIds]

/-- Each AmoCRM rule iteration emits exactly one `evaluated` entry. -/
lemma evaluatedIds_processAmoRule (u : String) (leadId : JVal) (ctx : EventCtx)
    (now : Nat) (inc : Nat → Bool) (so : Nat → Nat → Bool) (st : RedisState)
    (r : SyncRule) :
    evaluatedIds (processAmoRule u leadId ctx now inc so st r).2 = [r.id] := by
  simp only [processAmoRule]
  split
  · split
    · simp [evaluatedIds]
    · split <;>
        (simp [evaluatedIds_append, evaluatedIds];
         intro a ha;
         rcases executeActions_shape ha with ⟨_, _, _, hx⟩ | ⟨_, hx⟩ <;>
           subst hx <;> rfl)
  · simp [evaluatedIds]

/-- A loop whose every iteration emits exactly one `evaluated` entry
evaluates every rule of the list, in order. -/
lemma evaluatedIds_runRules (step : RedisState → SyncRule → RedisState × List Effect)
    (hstep : ∀ st r, evaluatedIds (step st r).2 = [r.id]) :
    ∀ (st : RedisState) (rules : List SyncRule),
      evaluatedIds (runRules step st rules).2 = rules.map (fun r => r.id) := by
  intro st rules
  induction rules generalizing st with
  | nil => rfl
  | cons r rest ih =>
    rw [runRules_cons]
    simp only [evaluatedIds_append, hstep, ih, List.map_cons, List.cons_append,
      List.nil_append]

/-- The post-iteration state of one LPTracker rule step does not depend
on the increment/sync failure oracles. -/
lemma processLpRule_fst_indep (u : String) (w : LpWebhookData) (now : Nat)
    (inc1 inc2 : Nat → Bool) (so1 so2 : Nat → Nat → Bool) (st : RedisState)
    (r : SyncRule) :
    (processLpRule u w now inc1 so1 st r).1 =
      (processLpRule u w now inc2 so2 st r).1 := by
  simp only [processLpRule]
  by_cases hm : checkConditions r.conditions (lpEventCtx w) = true
  · simp only [hm, if_true]
    by_cases hd : cacheExists st
        (generateWebhookKey u (jsToString w.id) r.id w.action_timestamp) now = true
    · simp [hd]
    · simp only [Bool.not_eq_true] at hd
      simp only [hd, Bool.false_eq_true, if_false]
      cases hr : isWebhookRelevant w r with
      | error e => rfl
      | ok b => cases b <;> rfl
  · simp only [Bool.not_eq_true] at hm
    simp [hm]

/-- The dispatched-rule trace of one LPTracker rule step does not depend
on the increment/sync failure oracles. -/
lemma dispatchedIds_processLpRule_indep (u : String) (w : LpWebhookData)
    (now : Nat) (inc1 inc2 : Nat → Bool) (so1 so2 : Nat → Nat → Bool)
    (st : RedisState) (r : SyncRule) :
    dispatchedIds (processLpRule u w now inc1 so1 st r).2 =
      dispatchedIds (processLpRule u w now inc2 so2 st r).2 := by
  simp only [processLpRule]
  by_cases hm : checkConditions r.conditions (lpEventCtx w) = true
  · simp only [hm, if_true]
    by_cases hd : cacheExists st
        (generateWebhookKey u (jsToString w.id) r.id w.action_timestamp) now = true
    · simp [hd]
    · simp only [Bool.not_eq_true] at hd
      simp only [hd, Bool.false_eq_true, if_false]
      cases hr : isWebhookRelevant w r with
      | error e => rfl
      | ok b =>
        cases b with
        | false => rfl
        | true =>
          simp only [dispatchedIds_append, dispatchedIds_executeActions]
          congr 1
          split <;> split <;> rfl
  · simp only [Bool.not_eq_true] at hm
    simp [hm]

/-- Failure-oracle independence of a whole loop, given it for each
iteration. -/
lemma runRules_indep (step1 step2 : RedisState → SyncRule → RedisState × List Effect)
    (hfst : ∀ st r, (step1 st r).1 = (step2 st r).1)
    (hdisp : ∀ st r, dispatchedIds (step1 st r).2 = dispatchedIds (step2 st r).2) :
    ∀ (st : RedisState) (rules : List SyncRule),
      (runRules step1 st rules).1 = (runRules step2 st rules).1 ∧
      dispatchedIds (runRules step1 st rules).2 =
        dispatchedIds (runRules step2 st rules).2 := by
  intro st rules
  induction rules generalizing st with
  | nil => exact ⟨rfl, rfl⟩
  | cons r rest ih =>
    rw [runRules_cons, runRules_cons]
    constructor
    · rw [hfst st r]
      exact (ih ((step2 st r).1)).1
    · rw [dispatchedIds_append, dispatchedIds_append, hdisp st r, hfst st r]
      rw [(ih ((step2 st r).1)).2]

/-! ## Claim C4 — rule selection -/

/-- Counterexample to claim C4: the LPTracker flow evaluates and even
dispatches a rule that is INACTIVE and tagged with the other source
(`webhookSource = "amocrm"`), because `processLpTrackerWebhookDirect`
iterates the cached rule list without any source or `isActive` filter. -/
theorem c4_rule_selection_counterexample :
    Effect.dispatched 2 ∈
      (processLpTrackerRules "u1" lpDataC 0 (fun _ => true) (fun _ _ => true)
        emptyRedis [ruleInactiveAmo]).2 := by
  decide

/-- Claim C4 (amended): only the AmoCRM flow filters the fetched rules —
`processLeadRules` evaluates exactly the rules with
`webhookSource = "amocrm"` and `isActive = true`, in stored order; the
LPTracker flow evaluates EVERY rule of the user's cached list, regardless
of its source tag or `isActive` flag.  (The AmoCRM flow also fetches the
rules directly from storage rather than through the configuration
cache.) -/
theorem c4_rule_selection_amended :
    (∀ (userId : String) (leadId : JVal) (ld : LeadDetails) (payload : AmoPayload)
      (storageRules : List SyncRule) (now : Nat) (incOk : Nat → Bool)
      (syncOk : Nat → Nat → Bool) (st : RedisState),
      evaluatedIds (processLeadRules userId leadId ld payload storageRules now
          incOk syncOk st).2
        = ((storageRules.filter (fun r => r.webhookSource = "amocrm")).filter
            (fun r => r.isActive)).map (fun r => r.id)) ∧
    (∀ (userId : String) (w : LpWebhookData) (now : Nat) (incOk : Nat → Bool)
      (syncOk : Nat → Nat → Bool) (st : RedisState) (rules : List SyncRule),
      evaluatedIds (processLpTrackerRules userId w now incOk syncOk st rules).2
        = rules.map (fun r => r.id)) := by
  constructor
  · intro userId leadId ld payload storageRules now incOk syncOk st
    exact evaluatedIds_runRules _
      (fun st' r => evaluatedIds_processAmoRule userId leadId
        (amoEventCtx ld payload) now incOk syncOk st' r) st _
  · intro userId w now incOk syncOk st rules
    exact evaluatedIds_runRules _
      (fun st' r => evaluatedIds_processLpRule userId w now incOk syncOk st' r)
      st rules

/-- The post-iteration state of one AmoCRM rule step does not depend on
the increment/sync failure oracles. -/
lemma processAmoRule_fst_indep (u : String) (leadId : JVal) (ctx : EventCtx)
    (now : Nat) (inc1 inc2 : Nat → Bool) (so1 so2 : Nat → Nat → Bool)
    (st : RedisState) (r : SyncRule) :
    (processAmoRule u leadId ctx now inc1 so1 st r).1 =
      (processAmoRule u leadId ctx now inc2 so2 st r).1 := by
  simp only [processAmoRule]
  by_cases hm : checkConditions r.conditions ctx = true
  · simp only [hm, if_true]
    by_cases hd : cacheExists st
        (generateWebhookKey u (jsToString leadId) r.id .undefined) now = true
    · simp [hd]
    · simp only [Bool.not_eq_true] at hd
      simp only [hd, Bool.false_eq_true, if_false]
  · simp only [Bool.not_eq_true] at hm
    simp [hm]

/-- The dispatched-rule trace of one AmoCRM rule step does not depend on
the increment/sync failure oracles. -/
lemma dispatchedIds_processAmoRule_indep (u : String) (leadId : JVal)
    (ctx : EventCtx) (now : Nat) (inc1 inc2 : Nat → Bool)
    (so1 so2 : Nat → Nat → Bool) (st : RedisState) (r : SyncRule) :
    dispatchedIds (processAmoRule u leadId ctx now inc1 so1 st r).2 =
      dispatchedIds (processAmoRule u leadId ctx now inc2 so2 st r).2 := by
  simp only [processAmoRule]
  by_cases hm : checkConditions r.conditions ctx = true
  · simp only [hm, if_true]
    by_cases hd : cacheExists st
        (generateWebhookKey u (jsToString leadId) r.id .undefined) now = true
    · simp [hd]
    · simp only [Bool.not_eq_true] at hd
      simp only [hd, Bool.false_eq_true, if_false]
      simp only [dispatchedIds_append, dispatchedIds_executeActions]
      congr 1
      split <;> split <;> rfl
  · simp only [Bool.not_eq_true] at hm
    simp [hm]

/-! ## Claim C7 — per-rule isolation -/

/-- Claim C7: in both flows, a failure while dispatching or incrementing
one rule is caught inside that rule's iteration and never prevents the
remaining rules from being evaluated and, when matched, dispatched —
formally, every considered rule is evaluated under every failure oracle,
and both the resulting Redis state and the list of dispatched rules are
completely independent of which sync-adapter calls or counter increments
fail.  The first conjunct covers the LPTracker loop, the second the
AmoCRM loop (`processLeadRules`, whose considered rules are the filtered
list). -/
theorem c7_rule_isolation :
    (∀ (userId : String) (w : LpWebhookData) (now : Nat) (st : RedisState)
      (rules : List SyncRule) (incOk1 incOk2 : Nat → Bool)
      (syncOk1 syncOk2 : Nat → Nat → Bool),
      evaluatedIds (processLpTrackerRules userId w now incOk1 syncOk1 st rules).2
        = rules.map (fun r => r.id) ∧
      (processLpTrackerRules userId w now incOk1 syncOk1 st rules).1
        = (processLpTrackerRules userId w now incOk2 syncOk2 st rules).1 ∧
      dispatchedIds (processLpTrackerRules userId w now incOk1 syncOk1 st rules).2
        = dispatchedIds (processLpTrackerRules userId w now incOk2 syncOk2 st rules).2) ∧
    (∀ (userId : String) (leadId : JVal) (ld : LeadDetails) (payload : AmoPayload)
      (storageRules : List SyncRule) (now : Nat) (st : RedisState)
      (incOk1 incOk2 : Nat → Bool) (syncOk1 syncOk2 : Nat → Nat → Bool),
      evaluatedIds (processLeadRules userId leadId ld payload storageRules now
          incOk1 syncOk1 st).2
        = ((storageRules.filter (fun r => r.webhookSource = "amocrm")).filter
            (fun r => r.isActive)).map (fun r => r.id) ∧
      (processLeadRules userId leadId ld payload storageRules now
          incOk1 syncOk1 st).1
        = (processLeadRules userId leadId ld payload storageRules now
            incOk2 syncOk2 st).1 ∧
      dispatchedIds (processLeadRules userId leadId ld payload storageRules now
          incOk1 syncOk1 st).2
        = dispatchedIds (processLeadRules userId leadId ld payload storageRules
            now incOk2 syncOk2 st).2) := by
  constructor
  · intro userId w now st rules incOk1 incOk2 syncOk1 syncOk2
    have hind := runRules_indep (processLpRule userId w now incOk1 syncOk1)
      (processLpRule userId w now incOk2 syncOk2)
      (fun st' r => processLpRule_fst_indep userId w now incOk1 incOk2
        syncOk1 syncOk2 st' r)
      (fun st' r => dispatchedIds_processLpRule_indep userId w now incOk1 incOk2
        syncOk1 syncOk2 st' r) st rules
    exact ⟨evaluatedIds_runRules _
      (fun st' r => evaluatedIds_processLpRule userId w now incOk1 syncOk1 st' r)
      st rules, hind.1, hind.2⟩
  · intro userId leadId ld payload storageRules now st incOk1 incOk2
      syncOk1 syncOk2
    have hind := runRules_indep
      (processAmoRule userId leadId (amoEventCtx ld payload) now incOk1 syncOk1)
      (processAmoRule userId leadId (amoEventCtx ld payload) now incOk2 syncOk2)
      (fun st' r => processAmoRule_fst_indep userId leadId
        (amoEventCtx ld payload) now incOk1 incOk2 syncOk1 syncOk2 st' r)
      (fun st' r => dispatchedIds_processAmoRule_indep userId leadId
        (amoEventCtx ld payload) now incOk1 incOk2 syncOk1 syncOk2 st' r) st
      ((storageRules.filter (fun r => r.webhookSource = "amocrm")).filter
        (fun r => r.isActive))
    exact ⟨evaluatedIds_runRules _
      (fun st' r => evaluatedIds_processAmoRule userId leadId
        (amoEventCtx ld payload) now incOk1 syncOk1 st' r) st _,
      hind.1, hind.2⟩

/-! ## Claim C9 — marking and counting happen even when every dispatch fails -/

/-- Claim C9: in both flows, once a rule's conditions match, the dedup
key is unmarked and (for LPTracker) the event is relevant, the rule's
actions are executed, the dedup key is marked with the 600 s TTL and the
execution counter is incremented — for EVERY sync-failure oracle, in
particular when every adapter call fails, because `executeActions`
catches each action's error internally and never throws. -/
theorem c9_mark_and_count_despite_sync_failures :
    (∀ (userId : String) (w : LpWebhookData) (now : Nat) (incOk : Nat → Bool)
      (syncOk : Nat → Nat → Bool) (st : RedisState) (rule : SyncRule),
      checkConditions rule.conditions (lpEventCtx w) = true →
      cacheExists st
        (generateWebhookKey userId (jsToString w.id) rule.id w.action_timestamp)
        now = false →
      isWebhookRelevant w rule = .ok true →
      incOk rule.id = true →
      Effect.dispatched rule.id ∈ (processLpRule userId w now incOk syncOk st rule).2 ∧
      Effect.marked
          (generateWebhookKey userId (jsToString w.id) rule.id w.action_timestamp)
        ∈ (processLpRule userId w now incOk syncOk st rule).2 ∧
      Effect.incremented rule.id ∈ (processLpRule userId w now incOk syncOk st rule).2 ∧
      (processLpRule userId w now incOk syncOk st rule).1
          ("crm:" ++ generateWebhookKey userId (jsToString w.id) rule.id
            w.action_timestamp)
        = some (now + WEBHOOK_DEDUP_TTL)) ∧
    (∀ (userId : String) (leadId : JVal) (ctx : EventCtx) (now : Nat)
      (incOk : Nat → Bool) (syncOk : Nat → Nat → Bool) (st : RedisState)
      (rule : SyncRule),
      checkConditions rule.conditions ctx = true →
      cacheExists st (generateWebhookKey userId (jsToString leadId) rule.id .undefined)
        now = false →
      incOk rule.id = true →
      Effect.marked (generateWebhookKey userId (jsToString leadId) rule.id .undefined)
        ∈ (processAmoRule userId leadId ctx now incOk syncOk st rule).2 ∧
      Effect.incremented rule.id
        ∈ (processAmoRule userId leadId ctx now incOk syncOk st rule).2) := by
  constructor
  · intro userId w now incOk syncOk st rule hm hd hrel hinc
    simp only [processLpRule, hm, if_true, hd, Bool.false_eq_true, if_false,
      hrel, hinc]
    refine ⟨?_, ?_, ?_, ?_⟩
    · simp
    · simp
    · simp
    · simp [cacheSetWithTTL]
  · intro userId leadId ctx now incOk syncOk st rule hm hd hinc
    simp only [processAmoRule, hm, if_true, hd, Bool.false_eq_true, if_false, hinc]
    constructor
    · simp
    · simp

/-- Witness for `c9_mark_and_count_despite_sync_failures`: the concrete
active rule on the concrete LPTracker event, with EVERY adapter call
failing. -/
theorem c9_mark_and_count_witness :
    Effect.marked (generateWebhookKey "u1" (jsToString lpDataC.id) ruleActiveLp.id
        lpDataC.action_timestamp)
      ∈ (processLpRule "u1" lpDataC 0 (fun _ => true) (fun _ _ => false)
          emptyRedis ruleActiveLp).2 ∧
    Effect.incremented ruleActiveLp.id
      ∈ (processLpRule "u1" lpDataC 0 (fun _ => true) (fun _ _ => false)
          emptyRedis ruleActiveLp).2 :=
  ⟨(c9_mark_and_count_despite_sync_failures.1 "u1" lpDataC 0 (fun _ => true)
      (fun _ _ => false) emptyRedis ruleActiveLp (by decide) (by decide)
      (by rfl) (by decide)).2.1,
   (c9_mark_and_count_despite_sync_failures.1 "u1" lpDataC 0 (fun _ => true)
      (fun _ _ => false) emptyRedis ruleActiveLp (by decide) (by decide)
      (by rfl) (by decide)).2.2.1⟩


/-! ## Glob-matching lemmas for the cache-flush patterns -/

lemma toList_append (a b : String) : (a ++ b).toList = a.toList ++ b.toList :=
  String.data_append a b

lemma globMatch_star_any (s : List Char) : globMatch ['*'] s = true := by
  simp only [globMatch, eq_self_iff_true, if_true, List.any_eq_true]
  exact ⟨[], by simp [List.mem_tails], by simp⟩

lemma globMatch_refl (p : List Char) : globMatch p p = true := by
  induction p with
  | nil => rfl
  | cons c ps ih =>
    by_cases hc : c = '*'
    · subst hc
      simp only [globMatch, eq_self_iff_true, if_true, List.any_eq_true]
      exact ⟨ps, by simp [List.mem_tails], ih⟩
    · simp [globMatch, hc, ih]

/-- If `p1` matches `s1` and `p2` matches `s2` then the concatenated
pattern matches the concatenated string. -/
lemma globMatch_append {p1 s1 : List Char} (h1 : globMatch p1 s1 = true)
    {p2 s2 : List Char} (h2 : globMatch p2 s2 = true) :
    globMatch (p1 ++ p2) (s1 ++ s2) = true := by
  induction p1 generalizing s1 with
  | nil =>
    simp only [globMatch, List.isEmpty_iff] at h1
    subst h1
    simpa using h2
  | cons c ps ih =>
    by_cases hc : c = '*'
    · subst hc
      simp only [globMatch, eq_self_iff_true, if_true, List.any_eq_true,
        List.mem_tails] at h1
      obtain ⟨t, hsuffix, ht⟩ := h1
      simp only [List.cons_append, globMatch, eq_self_iff_true, if_true,
        List.any_eq_true, List.mem_tails]
      refine ⟨t ++ s2, ?_, ih ht⟩
      obtain ⟨pre, hpre⟩ := hsuffix
      exact ⟨pre, by rw [← List.append_assoc, hpre]⟩
    · cases s1 with
      | nil => simp [globMatch, hc] at h1
      | cons d rest =>
        simp only [globMatch, hc, if_false, Bool.and_eq_true,
          decide_eq_true_eq] at h1
        obtain ⟨hd, hrest⟩ := h1
        subst hd
        simp only [List.cons_append, globMatch, hc, if_false, Bool.and_eq_true,
          decide_eq_true_eq]
        exact ⟨trivial, ih hrest⟩

lemma glob_concat_str {p1 s1 : String} (h1 : globMatchStr p1 s1 = true)
    {p2 s2 : String} (h2 : globMatchStr p2 s2 = true) :
    globMatchStr (p1 ++ p2) (s1 ++ s2) = true := by
  unfold globMatchStr at *
  rw [toList_append, toList_append]
  exact globMatch_append h1 h2

lemma glob_refl_str (s : String) : globMatchStr s s = true :=
  globMatch_refl s.toList

lemma glob_star_str (s : String) : globMatchStr "*" s = true := by
  unfold globMatchStr
  exact globMatch_star_any s.toList

/-- A literal prefix followed by `*` matches that prefix followed by
anything. -/
lemma glob_prefix_star (pre rest : String) :
    globMatchStr (pre ++ "*") (pre ++ rest) = true :=
  glob_concat_str (glob_refl_str pre) (glob_star_str rest)

/-- Flushing never resurrects an absent key. -/
lemma flushPattern_none {st : RedisState} {k : String} (h : st k = none)
    (pat : String) : flushPattern st pat k = none := by
  simp only [flushPattern]
  split <;> simp [h]

/-- Flushing deletes every matching key. -/
lemma flushPattern_matches {pat k : String}
    (h : globMatchStr ("crm:" ++ pat) k = true) (st : RedisState) :
    flushPattern st pat k = none := by
  simp [flushPattern, h]

/-! ## Claim C10 — cache invalidation erases dedup markers -/

/-- Any dedup key of user `u` is gone right after `invalidateUserCache u`. -/
lemma invalidate_kills_webhook_key (st : RedisState) (u l : String) (r : Nat)
    (t : JVal) (now : Nat) :
    cacheExists (invalidateUserCache st u) (generateWebhookKey u l r t) now
      = false := by
  have hm : globMatchStr ("crm:" ++ ("webhook:" ++ u ++ "*"))
      ("crm:" ++ generateWebhookKey u l r t) = true := by
    have e1 : "crm:" ++ ("webhook:" ++ u ++ "*")
        = ("crm:" ++ "webhook:" ++ u) ++ "*" := by
      simp only [String.append_assoc]
    have e2 : "crm:" ++ generateWebhookKey u l r t
        = ("crm:" ++ "webhook:" ++ u) ++ (":" ++ l ++ ":" ++ toString r ++ ":" ++
            (if jsTruthy t then jsToString t else "default")) := by
      simp only [generateWebhookKey, String.append_assoc]
    rw [e1, e2]
    exact glob_prefix_star _ _
  simp only [invalidateUserCache, cacheExists]
  rw [flushPattern_matches hm]

/-- Any dedup key of any user is gone right after `clearAllCaches`. -/
lemma clearAll_kills_webhook_key (st : RedisState) (u l : String) (r : Nat)
    (t : JVal) (now : Nat) :
    cacheExists (clearAllCaches st) (generateWebhookKey u l r t) now = false := by
  have hm : globMatchStr ("crm:" ++ "webhook:*")
      ("crm:" ++ generateWebhookKey u l r t) = true := by
    have e1 : ("crm:" ++ "webhook:*" : String) = ("crm:" ++ "webhook:") ++ "*" := by
      decide
    have e2 : "crm:" ++ generateWebhookKey u l r t
        = ("crm:" ++ "webhook:") ++ (u ++ ":" ++ l ++ ":" ++ toString r ++ ":" ++
            (if jsTruthy t then jsToString t else "default")) := by
      simp only [generateWebhookKey, String.append_assoc]
    rw [e1, e2]
    exact glob_prefix_star _ _
  simp only [clearAllCaches, cacheExists]
  rw [flushPattern_matches hm]

/-- The user's cached rules key is gone after `invalidateUserCache`. -/
lemma invalidate_kills_rules_key (st : RedisState) (u : String) :
    invalidateUserCache st u ("crm:" ++ ("sync_rules:" ++ u)) = none := by
  have hm : globMatchStr ("crm:" ++ ("sync_rules:" ++ u ++ "*"))
      ("crm:" ++ ("sync_rules:" ++ u)) = true := by
    have e1 : "crm:" ++ ("sync_rules:" ++ u ++ "*")
        = ("crm:" ++ ("sync_rules:" ++ u)) ++ "*" := by
      simp only [String.append_assoc]
    rw [e1]
    have h := glob_prefix_star ("crm:" ++ ("sync_rules:" ++ u)) ""
    rwa [String.append_empty] at h
  simp only [invalidateUserCache]
  apply flushPattern_none
  apply flushPattern_none
  apply flushPattern_none
  exact flushPattern_matches hm st

/-- The user's cached settings keys are gone after `invalidateUserCache`. -/
lemma invalidate_kills_settings_key (st : RedisState) (u platform : String) :
    invalidateUserCache st u ("crm:" ++ ("settings:" ++ platform ++ ":" ++ u))
      = none := by
  have hm : globMatchStr ("crm:" ++ ("settings:*:" ++ u ++ "*"))
      ("crm:" ++ ("settings:" ++ platform ++ ":" ++ u)) = true := by
    have e1 : "crm:" ++ ("settings:*:" ++ u ++ "*")
        = ((("crm:" ++ "settings:") ++ "*") ++ (":" ++ u)) ++ "*" := by
      rw [show ("settings:*:" : String) = "settings:" ++ "*" ++ ":" from by decide]
      simp only [String.append_assoc]
    have e2 : "crm:" ++ ("settings:" ++ platform ++ ":" ++ u)
        = ((("crm:" ++ "settings:") ++ platform) ++ (":" ++ u)) ++ "" := by
      rw [String.append_empty]
      simp only [String.append_assoc]
    rw [e1, e2]
    exact glob_concat_str
      (glob_concat_str
        (glob_concat_str (glob_refl_str ("crm:" ++ "settings:"))
          (glob_star_str platform))
        (glob_refl_str (":" ++ u)))
      (glob_star_str "")
  simp only [invalidateUserCache]
  apply flushPattern_none
  apply flushPattern_matches hm

/-- The user's cached metadata keys are gone after `invalidateUserCache`. -/
lemma invalidate_kills_metadata_key (st : RedisState) (u platform mtype : String) :
    invalidateUserCache st u
      ("crm:" ++ ("metadata:" ++ platform ++ ":" ++ u ++ ":" ++ mtype)) = none := by
  have hm : globMatchStr ("crm:" ++ ("metadata:*:" ++ u ++ "*"))
      ("crm:" ++ ("metadata:" ++ platform ++ ":" ++ u ++ ":" ++ mtype)) = true := by
    have e1 : "crm:" ++ ("metadata:*:" ++ u ++ "*")
        = ((("crm:" ++ "metadata:") ++ "*") ++ (":" ++ u)) ++ "*" := by
      rw [show ("metadata:*:" : String) = "metadata:" ++ "*" ++ ":" from by decide]
      simp only [String.append_assoc]
    have e2 : "crm:" ++ ("metadata:" ++ platform ++ ":" ++ u ++ ":" ++ mtype)
        = ((("crm:" ++ "metadata:") ++ platform) ++ (":" ++ u)) ++ (":" ++ mtype) := by
      simp only [String.append_assoc]
    rw [e1, e2]
    exact glob_concat_str
      (glob_concat_str
        (glob_concat_str (glob_refl_str ("crm:" ++ "metadata:"))
          (glob_star_str platform))
        (glob_refl_str (":" ++ u)))
      (glob_star_str (":" ++ mtype))
  simp only [invalidateUserCache]
  apply flushPattern_none
  apply flushPattern_none
  apply flushPattern_matches hm

/-- A `dispatched` trace entry can only arise from the dispatch branch:
the rule matched, was not deduplicated, and was relevant. -/
lemma processLpRule_dispatched_elim {u : String} {w : LpWebhookData} {now : Nat}
    {inc : Nat → Bool} {so : Nat → Nat → Bool} {st : RedisState} {r : SyncRule}
    {rid : Nat}
    (h : Effect.dispatched rid ∈ (processLpRule u w now inc so st r).2) :
    rid = r.id ∧ checkConditions r.conditions (lpEventCtx w) = true ∧
      cacheExists st
        (generateWebhookKey u (jsToString w.id) r.id w.action_timestamp) now
        = false ∧
      isWebhookRelevant w r = .ok true := by
  simp only [processLpRule] at h
  by_cases hm : checkConditions r.conditions (lpEventCtx w) = true
  · simp only [hm, if_true] at h
    by_cases hd : cacheExists st
        (generateWebhookKey u (jsToString w.id) r.id w.action_timestamp) now
        = true
    · simp [hd] at h
    · simp only [Bool.not_eq_true] at hd
      simp only [hd, Bool.false_eq_true, if_false] at h
      cases hr : isWebhookRelevant w r with
      | error e => rw [hr] at h; simp at h
      | ok b =>
        rw [hr] at h
        cases b with
        | false => simp at h
        | true =>
          refine ⟨?_, hm, hd, rfl⟩
          simp only [List.mem_append, List.mem_cons, List.not_mem_nil, or_false,
            List.mem_singleton] at h
          rcases h with (((h | h) | h) | h) | h
          · simp at h
          · simpa using h
          · exact absurd h dispatched_notin_executeActions
          · simp at h
          · split at h <;> simp at h
  · simp only [Bool.not_eq_true] at hm
    simp [hm] at h

/-- Claim C10: `invalidateUserCache(userId)` deletes — besides the user's
cached rules, settings and metadata keys — every deduplication marker
whose key matches `webhook:{userId}*`, and `clearAllCaches` deletes every
user's markers; consequently a (user, entity, rule, timestamp)
combination that already dispatched can dispatch again immediately after
an invalidation, with no regard to the 600 s TTL. -/
theorem c10_invalidate_clears_dedup :
    (∀ (st : RedisState) (u l : String) (r : Nat) (t : JVal) (now : Nat),
      cacheExists (invalidateUserCache st u) (generateWebhookKey u l r t) now
        = false) ∧
    (∀ (st : RedisState) (u : String),
      invalidateUserCache st u ("crm:" ++ ("sync_rules:" ++ u)) = none) ∧
    (∀ (st : RedisState) (u platform : String),
      invalidateUserCache st u ("crm:" ++ ("settings:" ++ platform ++ ":" ++ u))
        = none) ∧
    (∀ (st : RedisState) (u platform mtype : String),
      invalidateUserCache st u
        ("crm:" ++ ("metadata:" ++ platform ++ ":" ++ u ++ ":" ++ mtype))
        = none) ∧
    (∀ (st : RedisState) (u l : String) (r : Nat) (t : JVal) (now : Nat),
      cacheExists (clearAllCaches st) (generateWebhookKey u l r t) now = false) ∧
    (∀ (userId : String) (w : LpWebhookData) (now1 now2 : Nat)
      (inc1 inc2 : Nat → Bool) (sync1 sync2 : Nat → Nat → Bool)
      (st1 st2 : RedisState) (rule : SyncRule) (rid : Nat),
      Effect.dispatched rid ∈ (processLpRule userId w now1 inc1 sync1 st1 rule).2 →
      Effect.dispatched rid ∈
        (processLpRule userId w now2 inc2 sync2 (invalidateUserCache st2 userId)
          rule).2) := by
  refine ⟨invalidate_kills_webhook_key, invalidate_kills_rules_key,
    invalidate_kills_settings_key, invalidate_kills_metadata_key,
    clearAll_kills_webhook_key, ?_⟩
  intro userId w now1 now2 inc1 inc2 sync1 sync2 st1 st2 rule rid h
  obtain ⟨hrid, hm, _, hrel⟩ := processLpRule_dispatched_elim h
  subst hrid
  have hd := invalidate_kills_webhook_key st2 userId (jsToString w.id) rule.id
    w.action_timestamp now2
  simp only [processLpRule, hm, if_true, hd, Bool.false_eq_true, if_false, hrel]
  simp

/-- Witness for `c10_invalidate_clears_dedup`: the concrete rule fires at
instant 0, its dedup marker is written, the user's cache is invalidated,
and the very same rule fires AGAIN at instant 7 — long before the 600 s
TTL would have expired. -/
theorem c10_invalidate_clears_dedup_witness :
    Effect.dispatched 3 ∈
      (processLpRule "u1" lpDataC 7 (fun _ => true) (fun _ _ => true)
        (invalidateUserCache
          (processLpRule "u1" lpDataC 0 (fun _ => true) (fun _ _ => true)
            emptyRedis ruleActiveLp).1 "u1")
        ruleActiveLp).2 :=
  c10_invalidate_clears_dedup.2.2.2.2.2 "u1" lpDataC 0 7 (fun _ => true)
    (fun _ => true) (fun _ _ => true) (fun _ _ => true) emptyRedis
    (processLpRule "u1" lpDataC 0 (fun _ => true) (fun _ _ => true)
      emptyRedis ruleActiveLp).1 ruleActiveLp 3 (by decide)

/-! ## Claim C1 — idempotent suppression across two deliveries -/

/-- Pointwise: one AmoCRM rule step either leaves a key untouched or
stamps it with the run's expiry. -/
lemma processAmoRule_fst_cases (u : String) (leadId : JVal) (ctx : EventCtx)
    (now : Nat) (inc : Nat → Bool) (so : Nat → Nat → Bool) (st : RedisState)
    (r : SyncRule) (c : String) :
    (processAmoRule u leadId ctx now inc so st r).1 c = st c ∨
    (processAmoRule u leadId ctx now inc so st r).1 c
      = some (now + WEBHOOK_DEDUP_TTL) := by
  simp only [processAmoRule]
  by_cases hm : checkConditions r.conditions ctx = true
  · simp only [hm, if_true]
    by_cases hd : cacheExists st
        (generateWebhookKey u (jsToString leadId) r.id .undefined) now = true
    · simp [hd]
    · simp only [Bool.not_eq_true] at hd
      simp only [hd, Bool.false_eq_true, if_false]
      simp only [cacheSetWithTTL]
      split
      · exact Or.inr rfl
      · exact Or.inl rfl
  · simp only [Bool.not_eq_true] at hm
    simp [hm]

/-- A key already carrying the run's expiry keeps it through one AmoCRM
rule step. -/
lemma processAmoRule_preserves_val {u : String} {leadId : JVal} {ctx : EventCtx}
    {now : Nat} {inc : Nat → Bool} {so : Nat → Nat → Bool} {st : RedisState}
    {r : SyncRule} {c : String} (h : st c = some (now + WEBHOOK_DEDUP_TTL)) :
    (processAmoRule u leadId ctx now inc so st r).1 c
      = some (now + WEBHOOK_DEDUP_TTL) := by
  rcases processAmoRule_fst_cases u leadId ctx now inc so st r c with hc | hc
  · rw [hc, h]
  · exact hc

/-- A key already carrying the run's expiry keeps it through the whole
AmoCRM loop. -/
lemma runAmo_preserves_val {u : String} {leadId : JVal} {ctx : EventCtx}
    {now : Nat} {inc : Nat → Bool} {so : Nat → Nat → Bool} {c : String} :
    ∀ {rules : List SyncRule} {st : RedisState},
    st c = some (now + WEBHOOK_DEDUP_TTL) →
    (processAmoRules u leadId ctx now inc so st rules).1 c
      = some (now + WEBHOOK_DEDUP_TTL) := by
  intro rules
  induction rules with
  | nil => intro st h; exact h
  | cons r rest ih => intro st h; exact ih (processAmoRule_preserves_val h)

/-- A `marked` entry of an AmoCRM step identifies its key (with the
`default` timestamp component) and guarantees the stamped expiry. -/
lemma processAmoRule_marked_elim {u : String} {leadId : JVal} {ctx : EventCtx}
    {now : Nat} {inc : Nat → Bool} {so : Nat → Nat → Bool} {st : RedisState}
    {r : SyncRule} {k : String}
    (h : Effect.marked k ∈ (processAmoRule u leadId ctx now inc so st r).2) :
    k = generateWebhookKey u (jsToString leadId) r.id .undefined ∧
    (processAmoRule u leadId ctx now inc so st r).1 ("crm:" ++ k)
      = some (now + WEBHOOK_DEDUP_TTL) := by
  simp only [processAmoRule] at h ⊢
  by_cases hm : checkConditions r.conditions ctx = true
  · simp only [hm, if_true] at h ⊢
    by_cases hd : cacheExists st
        (generateWebhookKey u (jsToString leadId) r.id .undefined) now = true
    · simp [hd] at h
    · simp only [Bool.not_eq_true] at hd
      simp only [hd, Bool.false_eq_true, if_false] at h ⊢
      have hk : k = generateWebhookKey u (jsToString leadId) r.id .undefined := by
        simp only [List.mem_append, List.mem_cons, List.not_mem_nil, or_false,
          List.mem_singleton] at h
        rcases h with (((h | h) | h) | h) | h
        · simp at h
        · simp at h
        · exact absurd h marked_in_executeActions
        · simpa using h
        · split at h <;> simp at h
      refine ⟨hk, ?_⟩
      subst hk
      simp [cacheSetWithTTL]
  · simp only [Bool.not_eq_true] at hm
    simp [hm] at h

/-- A key marked anywhere in an AmoCRM run carries the run's expiry in
the final state. -/
lemma runAmo_marked_final {u : String} {leadId : JVal} {ctx : EventCtx}
    {now : Nat} {inc : Nat → Bool} {so : Nat → Nat → Bool} :
    ∀ {rules : List SyncRule} {st : RedisState} {k : String},
    Effect.marked k ∈ (processAmoRules u leadId ctx now inc so st rules).2 →
    (processAmoRules u leadId ctx now inc so st rules).1 ("crm:" ++ k)
      = some (now + WEBHOOK_DEDUP_TTL) := by
  intro rules
  induction rules with
  | nil => intro st k h; simp [processAmoRules, runRules] at h
  | cons r rest ih =>
    intro st k h
    rcases List.mem_append.1 h with h1 | h2
    · show (processAmoRules u leadId ctx now inc so
          (processAmoRule u leadId ctx now inc so st r).1 rest).1 ("crm:" ++ k)
        = some (now + WEBHOOK_DEDUP_TTL)
      exact runAmo_preserves_val (processAmoRule_marked_elim h1).2
    · exact ih h2

/-- A `dispatched` entry of an AmoCRM step can only arise from the
dispatch branch: the rule matched and was not deduplicated. -/
lemma processAmoRule_dispatched_elim {u : String} {leadId : JVal}
    {ctx : EventCtx} {now : Nat} {inc : Nat → Bool} {so : Nat → Nat → Bool}
    {st : RedisState} {r : SyncRule} {rid : Nat}
    (h : Effect.dispatched rid ∈ (processAmoRule u leadId ctx now inc so st r).2) :
    rid = r.id ∧ checkConditions r.conditions ctx = true ∧
      cacheExists st (generateWebhookKey u (jsToString leadId) r.id .undefined)
        now = false := by
  simp only [processAmoRule] at h
  by_cases hm : checkConditions r.conditions ctx = true
  · simp only [hm, if_true] at h
    by_cases hd : cacheExists st
        (generateWebhookKey u (jsToString leadId) r.id .undefined) now = true
    · simp [hd] at h
    · simp only [Bool.not_eq_true] at hd
      simp only [hd, Bool.false_eq_true, if_false] at h
      refine ⟨?_, hm, hd⟩
      simp only [List.mem_append, List.mem_cons, List.not_mem_nil, or_false,
        List.mem_singleton] at h
      rcases h with (((h | h) | h) | h) | h
      · simp at h
      · simpa using h
      · exact absurd h dispatched_notin_executeActions
      · simp at h
      · split at h <;> simp at h
  · simp only [Bool.not_eq_true] at hm
    simp [hm] at h

/-- An AmoCRM rule with a `dispatched` entry also marked its key during
the same step. -/
lemma processAmoRule_dispatched_marked {u : String} {leadId : JVal}
    {ctx : EventCtx} {now : Nat} {inc : Nat → Bool} {so : Nat → Nat → Bool}
    {st : RedisState} {r : SyncRule} {rid : Nat}
    (h : Effect.dispatched rid ∈ (processAmoRule u leadId ctx now inc so st r).2) :
    Effect.marked (generateWebhookKey u (jsToString leadId) rid .undefined)
      ∈ (processAmoRule u leadId ctx now inc so st r).2 := by
  obtain ⟨hrid, hm, hd⟩ := processAmoRule_dispatched_elim h
  subst hrid
  simp only [processAmoRule, hm, if_true, hd, Bool.false_eq_true, if_false]
  simp

/-- Where a `dispatched` entry of an AmoCRM run comes from: some rule of
the list with that id matched, and the corresponding dedup key was
marked. -/
lemma runAmo_dispatched_elim {u : String} {leadId : JVal} {ctx : EventCtx}
    {now : Nat} {inc : Nat → Bool} {so : Nat → Nat → Bool} :
    ∀ {rules : List SyncRule} {st : RedisState} {rid : Nat},
    Effect.dispatched rid ∈ (processAmoRules u leadId ctx now inc so st rules).2 →
    Effect.marked (generateWebhookKey u (jsToString leadId) rid .undefined)
      ∈ (processAmoRules u leadId ctx now inc so st rules).2 ∧
    ∃ r, r ∈ rules ∧ r.id = rid ∧ checkConditions r.conditions ctx = true := by
  intro rules
  induction rules with
  | nil => intro st rid h; simp [processAmoRules, runRules] at h
  | cons r rest ih =>
    intro st rid h
    rcases List.mem_append.1 h with h1 | h2
    · obtain ⟨hrid, hm, _⟩ := processAmoRule_dispatched_elim h1
      exact ⟨List.mem_append.2 (Or.inl (processAmoRule_dispatched_marked h1)),
        r, List.mem_cons_self r rest, hrid.symm, hm⟩
    · obtain ⟨hmark, r', hr'm, hr'id, hr'c⟩ := ih h2
      exact ⟨List.mem_append.2 (Or.inr hmark),
        r', List.mem_cons_of_mem r hr'm, hr'id, hr'c⟩

/-- A live key stays live through one AmoCRM rule step of the same run. -/
lemma processAmoRule_preserves_live {u : String} {leadId : JVal}
    {ctx : EventCtx} {now : Nat} {inc : Nat → Bool} {so : Nat → Nat → Bool}
    {st : RedisState} {r : SyncRule} {k : String}
    (h : cacheExists st k now = true) :
    cacheExists ((processAmoRule u leadId ctx now inc so st r).1) k now = true := by
  rcases processAmoRule_fst_cases u leadId ctx now inc so st r ("crm:" ++ k)
    with hc | hc
  · simp only [cacheExists] at h ⊢
    rw [hc]
    exact h
  · simp only [cacheExists]
    rw [hc]
    simp only [WEBHOOK_DEDUP_TTL, decide_eq_true_eq]
    omega

/-- An `incremented` entry of an AmoCRM step can only arise from the
dispatch branch of the rule with that id. -/
lemma processAmoRule_incremented_elim {u : String} {leadId : JVal}
    {ctx : EventCtx} {now : Nat} {inc : Nat → Bool} {so : Nat → Nat → Bool}
    {st : RedisState} {r : SyncRule} {rid : Nat}
    (h : Effect.incremented rid ∈ (processAmoRule u leadId ctx now inc so st r).2) :
    rid = r.id ∧ checkConditions r.conditions ctx = true ∧
      cacheExists st (generateWebhookKey u (jsToString leadId) r.id .undefined)
        now = false := by
  simp only [processAmoRule] at h
  by_cases hm : checkConditions r.conditions ctx = true
  · simp only [hm, if_true] at h
    by_cases hd : cacheExists st
        (generateWebhookKey u (jsToString leadId) r.id .undefined) now = true
    · simp [hd] at h
    · simp only [Bool.not_eq_true] at hd
      simp only [hd, Bool.false_eq_true, if_false] at h
      refine ⟨?_, hm, hd⟩
      simp only [List.mem_append, List.mem_cons, List.not_mem_nil, or_false,
        List.mem_singleton] at h
      rcases h with (((h | h) | h) | h) | h
      · simp at h
      · simp at h
      · exact absurd h incremented_notin_executeActions
      · simp at h
      · split at h
        · simpa using h
        · simp at h
  · simp only [Bool.not_eq_true] at hm
    simp [hm] at h

/-- While the rule's dedup key is live, no rule of that id dispatches or
increments anywhere in an AmoCRM run. -/
lemma runAmo_live_no_dispatch {u : String} {leadId : JVal} {ctx : EventCtx}
    {now : Nat} {inc : Nat → Bool} {so : Nat → Nat → Bool} {rid : Nat} :
    ∀ {rules : List SyncRule} {st : RedisState},
    cacheExists st (generateWebhookKey u (jsToString leadId) rid .undefined) now
      = true →
    Effect.dispatched rid ∉ (processAmoRules u leadId ctx now inc so st rules).2 ∧
    Effect.incremented rid ∉ (processAmoRules u leadId ctx now inc so st rules).2 := by
  intro rules
  induction rules with
  | nil =>
    intro st h
    constructor <;> simp [processAmoRules, runRules]
  | cons r rest ih =>
    intro st h
    have htail := ih (@processAmoRule_preserves_live u leadId ctx now inc so
      st r _ h)
    have hhead : Effect.dispatched rid
        ∉ (processAmoRule u leadId ctx now inc so st r).2 ∧
        Effect.incremented rid
          ∉ (processAmoRule u leadId ctx now inc so st r).2 := by
      by_cases hid : r.id = rid
      · subst hid
        constructor
        · intro hmem
          obtain ⟨_, _, hd⟩ := processAmoRule_dispatched_elim hmem
          simp [hd] at h
        · intro hmem
          obtain ⟨_, _, hd⟩ := processAmoRule_incremented_elim hmem
          simp [hd] at h
      · constructor
        · intro hmem
          exact hid (processAmoRule_dispatched_elim hmem).1.symm
        · intro hmem
          exact hid (processAmoRule_incremented_elim hmem).1.symm
    constructor
    · intro hmem
      rcases List.mem_append.1 hmem with h1 | h2
      · exact hhead.1 h1
      · exact htail.1 h2
    · intro hmem
      rcases List.mem_append.1 hmem with h1 | h2
      · exact hhead.2 h1
      · exact htail.2 h2

/-- A matching rule of the list whose dedup key is live is skipped with a
`skippedDedup` log entry, in the AmoCRM loop. -/
lemma runAmo_live_skip {u : String} {leadId : JVal} {ctx : EventCtx}
    {now : Nat} {inc : Nat → Bool} {so : Nat → Nat → Bool} {rid : Nat} :
    ∀ {rules : List SyncRule} {st : RedisState} {r : SyncRule},
    r ∈ rules → r.id = rid →
    checkConditions r.conditions ctx = true →
    cacheExists st (generateWebhookKey u (jsToString leadId) rid .undefined) now
      = true →
    Effect.skippedDedup rid ∈ (processAmoRules u leadId ctx now inc so st rules).2 := by
  intro rules
  induction rules with
  | nil => intro st r h; simp at h
  | cons r0 rest ih =>
    intro st r hmem hid hm hlive
    rcases List.mem_cons.1 hmem with heq | htail
    · subst heq
      apply List.mem_append.2
      left
      have hlive' : cacheExists st
          (generateWebhookKey u (jsToString leadId) r.id .undefined) now
          = true := by rw [hid]; exact hlive
      rw [← hid]
      simp only [processAmoRule, hm, if_true, hlive', if_true]
      simp
    · exact List.mem_append.2 (Or.inr
        (ih htail hid hm (processAmoRule_preserves_live hlive)))


/-- Pointwise: one rule step either leaves a key untouched or stamps it
with the run's expiry. -/
lemma processLpRule_fst_cases (u : String) (w : LpWebhookData) (now : Nat)
    (inc : Nat → Bool) (so : Nat → Nat → Bool) (st : RedisState) (r : SyncRule)
    (c : String) :
    (processLpRule u w now inc so st r).1 c = st c ∨
    (processLpRule u w now inc so st r).1 c = some (now + WEBHOOK_DEDUP_TTL) := by
  simp only [processLpRule]
  by_cases hm : checkConditions r.conditions (lpEventCtx w) = true
  · simp only [hm, if_true]
    by_cases hd : cacheExists st
        (generateWebhookKey u (jsToString w.id) r.id w.action_timestamp) now
        = true
    · simp [hd]
    · simp only [Bool.not_eq_true] at hd
      simp only [hd, Bool.false_eq_true, if_false]
      cases hr : isWebhookRelevant w r with
      | error e => exact Or.inl rfl
      | ok b =>
        cases b with
        | false => exact Or.inl rfl
        | true =>
          simp only [cacheSetWithTTL]
          split
          · exact Or.inr rfl
          · exact Or.inl rfl
  · simp only [Bool.not_eq_true] at hm
    simp [hm]

/-- A key already carrying the run's expiry keeps it through a rule
step. -/
lemma processLpRule_preserves_val {u : String} {w : LpWebhookData} {now : Nat}
    {inc : Nat → Bool} {so : Nat → Nat → Bool} {st : RedisState} {r : SyncRule}
    {c : String} (h : st c = some (now + WEBHOOK_DEDUP_TTL)) :
    (processLpRule u w now inc so st r).1 c = some (now + WEBHOOK_DEDUP_TTL) := by
  rcases processLpRule_fst_cases u w now inc so st r c with hc | hc
  · rw [hc, h]
  · exact hc

/-- A key already carrying the run's expiry keeps it through the whole
loop. -/
lemma runLp_preserves_val {u : String} {w : LpWebhookData} {now : Nat}
    {inc : Nat → Bool} {so : Nat → Nat → Bool} {c : String} :
    ∀ {rules : List SyncRule} {st : RedisState},
    st c = some (now + WEBHOOK_DEDUP_TTL) →
    (processLpTrackerRules u w now inc so st rules).1 c
      = some (now + WEBHOOK_DEDUP_TTL) := by
  intro rules
  induction rules with
  | nil => intro st h; exact h
  | cons r rest ih => intro st h; exact ih (processLpRule_preserves_val h)

/-- A `marked` trace entry identifies its key and guarantees the stamped
expiry in the step's output state. -/
lemma processLpRule_marked_elim {u : String} {w : LpWebhookData} {now : Nat}
    {inc : Nat → Bool} {so : Nat → Nat → Bool} {st : RedisState} {r : SyncRule}
    {k : String}
    (h : Effect.marked k ∈ (processLpRule u w now inc so st r).2) :
    k = generateWebhookKey u (jsToString w.id) r.id w.action_timestamp ∧
    (processLpRule u w now inc so st r).1 ("crm:" ++ k)
      = some (now + WEBHOOK_DEDUP_TTL) := by
  simp only [processLpRule] at h ⊢
  by_cases hm : checkConditions r.conditions (lpEventCtx w) = true
  · simp only [hm, if_true] at h ⊢
    by_cases hd : cacheExists st
        (generateWebhookKey u (jsToString w.id) r.id w.action_timestamp) now
        = true
    · simp [hd] at h
    · simp only [Bool.not_eq_true] at hd
      simp only [hd, Bool.false_eq_true, if_false] at h ⊢
      cases hr : isWebhookRelevant w r with
      | error e => rw [hr] at h; simp at h
      | ok b =>
        rw [hr] at h
        cases b with
        | false => simp at h
        | true =>
          have hk : k = generateWebhookKey u (jsToString w.id) r.id
              w.action_timestamp := by
            simp only [List.mem_append, List.mem_cons, List.not_mem_nil,
              or_false, List.mem_singleton] at h
            rcases h with (((h | h) | h) | h) | h
            · simp at h
            · simp at h
            · exact absurd h marked_in_executeActions
            · simpa using h
            · split at h <;> simp at h
          refine ⟨hk, ?_⟩
          subst hk
          simp [cacheSetWithTTL]
  · simp only [Bool.not_eq_true] at hm
    simp [hm] at h

/-- A key marked anywhere in a run carries the run's expiry in the final
state. -/
lemma runLp_marked_final {u : String} {w : LpWebhookData} {now : Nat}
    {inc : Nat → Bool} {so : Nat → Nat → Bool} :
    ∀ {rules : List SyncRule} {st : RedisState} {k : String},
    Effect.marked k ∈ (processLpTrackerRules u w now inc so st rules).2 →
    (processLpTrackerRules u w now inc so st rules).1 ("crm:" ++ k)
      = some (now + WEBHOOK_DEDUP_TTL) := by
  intro rules
  induction rules with
  | nil => intro st k h; simp [processLpTrackerRules, runRules] at h
  | cons r rest ih =>
    intro st k h
    rcases List.mem_append.1 h with h1 | h2
    · show (processLpTrackerRules u w now inc so
          (processLpRule u w now inc so st r).1 rest).1 ("crm:" ++ k)
        = some (now + WEBHOOK_DEDUP_TTL)
      exact runLp_preserves_val (processLpRule_marked_elim h1).2
    · exact ih h2

/-- A rule with a `dispatched` entry also marked its key during the same
step. -/
lemma processLpRule_dispatched_marked {u : String} {w : LpWebhookData}
    {now : Nat} {inc : Nat → Bool} {so : Nat → Nat → Bool} {st : RedisState}
    {r : SyncRule} {rid : Nat}
    (h : Effect.dispatched rid ∈ (processLpRule u w now inc so st r).2) :
    Effect.marked (generateWebhookKey u (jsToString w.id) rid w.action_timestamp)
      ∈ (processLpRule u w now inc so st r).2 := by
  obtain ⟨hrid, hm, hd, hrel⟩ := processLpRule_dispatched_elim h
  subst hrid
  simp only [processLpRule, hm, if_true, hd, Bool.false_eq_true, if_false, hrel]
  simp

/-- Where a `dispatched` entry of a run comes from: some rule of the list
with that id matched, and the corresponding dedup key was marked. -/
lemma runLp_dispatched_elim {u : String} {w : LpWebhookData} {now : Nat}
    {inc : Nat → Bool} {so : Nat → Nat → Bool} :
    ∀ {rules : List SyncRule} {st : RedisState} {rid : Nat},
    Effect.dispatched rid ∈ (processLpTrackerRules u w now inc so st rules).2 →
    Effect.marked (generateWebhookKey u (jsToString w.id) rid w.action_timestamp)
      ∈ (processLpTrackerRules u w now inc so st rules).2 ∧
    ∃ r, r ∈ rules ∧ r.id = rid ∧
      checkConditions r.conditions (lpEventCtx w) = true := by
  intro rules
  induction rules with
  | nil => intro st rid h; simp [processLpTrackerRules, runRules] at h
  | cons r rest ih =>
    intro st rid h
    rcases List.mem_append.1 h with h1 | h2
    · obtain ⟨hrid, hm, _, _⟩ := processLpRule_dispatched_elim h1
      exact ⟨List.mem_append.2 (Or.inl (processLpRule_dispatched_marked h1)),
        r, List.mem_cons_self r rest, hrid.symm, hm⟩
    · obtain ⟨hmark, r', hr'm, hr'id, hr'c⟩ := ih h2
      exact ⟨List.mem_append.2 (Or.inr hmark),
        r', List.mem_cons_of_mem r hr'm, hr'id, hr'c⟩

/-- A live key stays live through one rule step of the same run. -/
lemma processLpRule_preserves_live {u : String} {w : LpWebhookData} {now : Nat}
    {inc : Nat → Bool} {so : Nat → Nat → Bool} {st : RedisState} {r : SyncRule}
    {k : String} (h : cacheExists st k now = true) :
    cacheExists ((processLpRule u w now inc so st r).1) k now = true := by
  rcases processLpRule_fst_cases u w now inc so st r ("crm:" ++ k) with hc | hc
  · simp only [cacheExists] at h ⊢
    rw [hc]
    exact h
  · simp only [cacheExists]
    rw [hc]
    simp only [WEBHOOK_DEDUP_TTL, decide_eq_true_eq]
    omega

/-- An `incremented` trace entry can only arise from the dispatch branch
of the rule with that id. -/
lemma processLpRule_incremented_elim {u : String} {w : LpWebhookData}
    {now : Nat} {inc : Nat → Bool} {so : Nat → Nat → Bool} {st : RedisState}
    {r : SyncRule} {rid : Nat}
    (h : Effect.incremented rid ∈ (processLpRule u w now inc so st r).2) :
    rid = r.id ∧ checkConditions r.conditions (lpEventCtx w) = true ∧
      cacheExists st
        (generateWebhookKey u (jsToString w.id) r.id w.action_timestamp) now
        = false := by
  simp only [processLpRule] at h
  by_cases hm : checkConditions r.conditions (lpEventCtx w) = true
  · simp only [hm, if_true] at h
    by_cases hd : cacheExists st
        (generateWebhookKey u (jsToString w.id) r.id w.action_timestamp) now
        = true
    · simp [hd] at h
    · simp only [Bool.not_eq_true] at hd
      simp only [hd, Bool.false_eq_true, if_false] at h
      cases hr : isWebhookRelevant w r with
      | error e => rw [hr] at h; simp at h
      | ok b =>
        rw [hr] at h
        cases b with
        | false => simp at h
        | true =>
          refine ⟨?_, hm, hd⟩
          simp only [List.mem_append, List.mem_cons, List.not_mem_nil,
            or_false, List.mem_singleton] at h
          rcases h with (((h | h) | h) | h) | h
          · simp at h
          · simp at h
          · exact absurd h incremented_notin_executeActions
          · simp at h
          · split at h
            · simpa using h
            · simp at h
  · simp only [Bool.not_eq_true] at hm
    simp [hm] at h

/-- While the rule's dedup key is live, no rule of that id dispatches or
increments anywhere in a run. -/
lemma runLp_live_no_dispatch {u : String} {w : LpWebhookData} {now : Nat}
    {inc : Nat → Bool} {so : Nat → Nat → Bool} {rid : Nat} :
    ∀ {rules : List SyncRule} {st : RedisState},
    cacheExists st
      (generateWebhookKey u (jsToString w.id) rid w.action_timestamp) now
      = true →
    Effect.dispatched rid ∉ (processLpTrackerRules u w now inc so st rules).2 ∧
    Effect.incremented rid ∉ (processLpTrackerRules u w now inc so st rules).2 := by
  intro rules
  induction rules with
  | nil =>
    intro st h
    constructor <;> simp [processLpTrackerRules, runRules]
  | cons r rest ih =>
    intro st h
    have htail := ih (@processLpRule_preserves_live u w now inc so st r _ h)
    have hhead : Effect.dispatched rid ∉ (processLpRule u w now inc so st r).2 ∧
        Effect.incremented rid ∉ (processLpRule u w now inc so st r).2 := by
      by_cases hid : r.id = rid
      · subst hid
        constructor
        · intro hmem
          obtain ⟨_, _, hd, _⟩ := processLpRule_dispatched_elim hmem
          simp [hd] at h
        · intro hmem
          obtain ⟨_, _, hd⟩ := processLpRule_incremented_elim hmem
          simp [hd] at h
      · constructor
        · intro hmem
          exact hid (processLpRule_dispatched_elim hmem).1.symm
        · intro hmem
          exact hid (processLpRule_incremented_elim hmem).1.symm
    constructor
    · intro hmem
      rcases List.mem_append.1 hmem with h1 | h2
      · exact hhead.1 h1
      · exact htail.1 h2
    · intro hmem
      rcases List.mem_append.1 hmem with h1 | h2
      · exact hhead.2 h1
      · exact htail.2 h2

/-- A matching rule of the list whose dedup key is live is skipped with a
`skippedDedup` log entry. -/
lemma runLp_live_skip {u : String} {w : LpWebhookData} {now : Nat}
    {inc : Nat → Bool} {so : Nat → Nat → Bool} {rid : Nat} :
    ∀ {rules : List SyncRule} {st : RedisState} {r : SyncRule},
    r ∈ rules → r.id = rid →
    checkConditions r.conditions (lpEventCtx w) = true →
    cacheExists st
      (generateWebhookKey u (jsToString w.id) rid w.action_timestamp) now
      = true →
    Effect.skippedDedup rid ∈ (processLpTrackerRules u w now inc so st rules).2 := by
  intro rules
  induction rules with
  | nil => intro st r h; simp at h
  | cons r0 rest ih =>
    intro st r hmem hid hm hlive
    rcases List.mem_cons.1 hmem with heq | htail
    · subst heq
      apply List.mem_append.2
      left
      have hlive' : cacheExists st
          (generateWebhookKey u (jsToString w.id) r.id w.action_timestamp) now
          = true := by rw [hid]; exact hlive
      rw [← hid]
      simp only [processLpRule, hm, if_true, hlive', if_true]
      simp
    · exact List.mem_append.2 (Or.inr
        (ih htail hid hm (processLpRule_preserves_live hlive)))

/-- Claim C1: in both flows, if a rule dispatched for an event,
re-processing the SAME event within the dedup TTL finds the dedup key
already marked and skips that rule — the second run emits no dispatch and
no counter increment for that rule id, and logs a dedup skip instead.
This holds for every initial state, every pair of failure oracles, and
every rule list.  The first conjunct covers the LPTracker loop (keyed by
the action timestamp), the second the AmoCRM loop `processLeadRules`
(keyed with the `default` timestamp component). -/
theorem c1_idempotent_suppression :
    (∀ (userId : String) (w : LpWebhookData) (rules : List SyncRule)
      (st0 : RedisState) (now1 now2 : Nat) (inc1 inc2 : Nat → Bool)
      (sync1 sync2 : Nat → Nat → Bool) (rid : Nat),
      now1 ≤ now2 → now2 < now1 + WEBHOOK_DEDUP_TTL →
      Effect.dispatched rid
        ∈ (processLpTrackerRules userId w now1 inc1 sync1 st0 rules).2 →
      Effect.dispatched rid
          ∉ (processLpTrackerRules userId w now2 inc2 sync2
              (processLpTrackerRules userId w now1 inc1 sync1 st0 rules).1
              rules).2 ∧
      Effect.incremented rid
          ∉ (processLpTrackerRules userId w now2 inc2 sync2
              (processLpTrackerRules userId w now1 inc1 sync1 st0 rules).1
              rules).2 ∧
      Effect.skippedDedup rid
          ∈ (processLpTrackerRules userId w now2 inc2 sync2
              (processLpTrackerRules userId w now1 inc1 sync1 st0 rules).1
              rules).2) ∧
    (∀ (userId : String) (leadId : JVal) (ld : LeadDetails)
      (payload : AmoPayload) (storageRules : List SyncRule) (st0 : RedisState)
      (now1 now2 : Nat) (inc1 inc2 : Nat → Bool)
      (sync1 sync2 : Nat → Nat → Bool) (rid : Nat),
      now1 ≤ now2 → now2 < now1 + WEBHOOK_DEDUP_TTL →
      Effect.dispatched rid
        ∈ (processLeadRules userId leadId ld payload storageRules now1
            inc1 sync1 st0).2 →
      Effect.dispatched rid
          ∉ (processLeadRules userId leadId ld payload storageRules now2
              inc2 sync2
              (processLeadRules userId leadId ld payload storageRules now1
                inc1 sync1 st0).1).2 ∧
      Effect.incremented rid
          ∉ (processLeadRules userId leadId ld payload storageRules now2
              inc2 sync2
              (processLeadRules userId leadId ld payload storageRules now1
                inc1 sync1 st0).1).2 ∧
      Effect.skippedDedup rid
          ∈ (processLeadRules userId leadId ld payload storageRules now2
              inc2 sync2
              (processLeadRules userId leadId ld payload storageRules now1
                inc1 sync1 st0).1).2) := by
  constructor
  · intro u w rules st0 now1 now2 inc1 inc2 s1 s2 rid h12 hTTL hdisp
    obtain ⟨hmarked, r, hrmem, hrid, hrmatch⟩ := runLp_dispatched_elim hdisp
    have hfinal := runLp_marked_final hmarked
    have hlive : cacheExists (processLpTrackerRules u w now1 inc1 s1 st0 rules).1
        (generateWebhookKey u (jsToString w.id) rid w.action_timestamp) now2
        = true := by
      simp only [cacheExists]
      rw [hfinal]
      simp only [decide_eq_true_eq]
      exact hTTL
    have hnd := @runLp_live_no_dispatch u w now2 inc2 s2 rid rules _ hlive
    have hskip := @runLp_live_skip u w now2 inc2 s2 rid rules _ r hrmem hrid
      hrmatch hlive
    exact ⟨hnd.1, hnd.2, hskip⟩
  · intro u leadId ld payload storageRules st0 now1 now2 inc1 inc2 s1 s2 rid
      h12 hTTL hdisp
    obtain ⟨hmarked, r, hrmem, hrid, hrmatch⟩ :=
      @runAmo_dispatched_elim u leadId (amoEventCtx ld payload) now1 inc1 s1
        ((storageRules.filter
            (fun x : SyncRule => x.webhookSource = "amocrm")).filter
          (fun x : SyncRule => x.isActive)) st0 rid hdisp
    have hfinal := @runAmo_marked_final u leadId (amoEventCtx ld payload) now1
      inc1 s1
      ((storageRules.filter
          (fun x : SyncRule => x.webhookSource = "amocrm")).filter
        (fun x : SyncRule => x.isActive)) st0 _ hmarked
    have hfinal' : (processLeadRules u leadId ld payload storageRules now1
          inc1 s1 st0).1
        ("crm:" ++ generateWebhookKey u (jsToString leadId) rid .undefined)
        = some (now1 + WEBHOOK_DEDUP_TTL) := hfinal
    have hlive : cacheExists
        (processLeadRules u leadId ld payload storageRules now1 inc1 s1 st0).1
        (generateWebhookKey u (jsToString leadId) rid .undefined) now2
        = true := by
      simp only [cacheExists]
      rw [hfinal']
      simp only [decide_eq_true_eq]
      exact hTTL
    have hnd := @runAmo_live_no_dispatch u leadId (amoEventCtx ld payload)
      now2 inc2 s2 rid
      ((storageRules.filter (fun r => r.webhookSource = "amocrm")).filter
        (fun r => r.isActive))
      (processLeadRules u leadId ld payload storageRules now1 inc1 s1 st0).1
      hlive
    have hskip := @runAmo_live_skip u leadId (amoEventCtx ld payload)
      now2 inc2 s2 rid
      ((storageRules.filter (fun r => r.webhookSource = "amocrm")).filter
        (fun r => r.isActive))
      (processLeadRules u leadId ld payload storageRules now1 inc1 s1 st0).1
      r hrmem hrid hrmatch hlive
    exact ⟨hnd.1, hnd.2, hskip⟩

/-- Witness for `c1_idempotent_suppression`: in each flow the concrete
rule dispatches at instant 0; re-delivering the same event at instant 30
(within the 600 s TTL) yields no second dispatch, no second increment,
and a dedup skip. -/
theorem c1_idempotent_suppression_witness :
    (Effect.dispatched 3
        ∉ (processLpTrackerRules "u1" lpDataC 30 (fun _ => true)
            (fun _ _ => true)
            (processLpTrackerRules "u1" lpDataC 0 (fun _ => true)
              (fun _ _ => true) emptyRedis [ruleActiveLp]).1
            [ruleActiveLp]).2 ∧
      Effect.incremented 3
        ∉ (processLpTrackerRules "u1" lpDataC 30 (fun _ => true)
            (fun _ _ => true)
            (processLpTrackerRules "u1" lpDataC 0 (fun _ => true)
              (fun _ _ => true) emptyRedis [ruleActiveLp]).1
            [ruleActiveLp]).2 ∧
      Effect.skippedDedup 3
        ∈ (processLpTrackerRules "u1" lpDataC 30 (fun _ => true)
            (fun _ _ => true)
            (processLpTrackerRules "u1" lpDataC 0 (fun _ => true)
              (fun _ _ => true) emptyRedis [ruleActiveLp]).1
            [ruleActiveLp]).2) ∧
    (Effect.dispatched 4
        ∉ (processLeadRules "u1" (JVal.num 7) leadDetailsC amoPayloadC
            [ruleActiveAmo] 30 (fun _ => true) (fun _ _ => true)
            (processLeadRules "u1" (JVal.num 7) leadDetailsC amoPayloadC
              [ruleActiveAmo] 0 (fun _ => true) (fun _ _ => true)
              emptyRedis).1).2 ∧
      Effect.incremented 4
        ∉ (processLeadRules "u1" (JVal.num 7) leadDetailsC amoPayloadC
            [ruleActiveAmo] 30 (fun _ => true) (fun _ _ => true)
            (processLeadRules "u1" (JVal.num 7) leadDetailsC amoPayloadC
              [ruleActiveAmo] 0 (fun _ => true) (fun _ _ => true)
              emptyRedis).1).2 ∧
      Effect.skippedDedup 4
        ∈ (processLeadRules "u1" (JVal.num 7) leadDetailsC amoPayloadC
            [ruleActiveAmo] 30 (fun _ => true) (fun _ _ => true)
            (processLeadRules "u1" (JVal.num 7) leadDetailsC amoPayloadC
              [ruleActiveAmo] 0 (fun _ => true) (fun _ _ => true)
              emptyRedis).1).2) :=
  ⟨c1_idempotent_suppression.1 "u1" lpDataC [ruleActiveLp] emptyRedis 0 30
    (fun _ => true) (fun _ => true) (fun _ _ => true) (fun _ _ => true) 3
    (by omega) (by decide) (by decide),
   c1_idempotent_suppression.2 "u1" (JVal.num 7) leadDetailsC amoPayloadC
    [ruleActiveAmo] emptyRedis 0 30 (fun _ => true) (fun _ => true)
    (fun _ _ => true) (fun _ _ => true) 4 (by omega) (by decide) (by decide)⟩
